import Mathlib

/-!
Shallow embedding of the task-manager-server core: the entity schemas and
SQLite repositories (src/models/types.ts, src/repositories/*), the git branch
service (src/services/GitService.ts) and the task lifecycle orchestrator
(src/services/TaskService.ts).

Modelling conventions:
* JS numbers holding ids/lines/timestamps are modelled as `Int`; the
  `success_rating` real is modelled as `Rat`.
* zod `safeParse` is modelled as a Boolean validator per entity; zod's
  generated error message text is abstracted as the constant string
  "schema validation failed" (no claim depends on zod's message wording,
  only on the distinguished read-back prefixes, which are kept verbatim).
* The mutable SQLite database is threaded explicitly as a `DB` value; every
  mutating repository operation returns the result together with the
  database, so that what is written, and when, is part of the definition.
* `uuidv4()` and `Date.now()` are external inputs and appear as explicit
  parameters (`newId`, `now`).
* Prepared statements are always initialized after the constructor runs, so
  the defensive "statement not initialized" branches are not reachable and
  are not modelled.
-/

/-- Error kinds of src/models/types.ts: ValidationError, NotFoundError
(whose message is built from resource and id), GitError, DatabaseError. -/
inductive Err where
  | validation (msg : String)
  | notFound (resource : String) (id : String)
  | git (msg : String)
  | database (msg : String)
deriving DecidableEq, Repr

/-- Hexadecimal digit test used by the uuid format check. -/
def isHexDigit (c : Char) : Bool :=
  ('0' ≤ c && c ≤ '9') || ('a' ≤ c && c ≤ 'f') || ('A' ≤ c && c ≤ 'F')

/-- The `z.string().uuid()` format check: 36 characters, dashes at positions
8, 13, 18 and 23, hexadecimal digits elsewhere (case-insensitive). -/
def isUuid (s : String) : Bool :=
  let cs := s.toList
  cs.length == 36 &&
    (List.range 36).all (fun i =>
      let c := cs.getD i ' '
      if i == 8 || i == 13 || i == 18 || i == 23 then c == '-' else isHexDigit c)

/-- The TaskStatus enum values of src/models/types.ts. -/
def statusOk (s : String) : Bool :=
  s == "created" || s == "in_progress" || s == "paused" || s == "completed"

/-- A row of the `tasks` table (the Task entity shape). -/
structure TaskRow where
  id : String
  title : String
  description : Option String
  priority : Int
  complexity : Int
  status : String
  created_at : Int
  updated_at : Int
deriving DecidableEq, Repr

/-- A row of the `code_locations` table (the CodeLocation entity shape). -/
structure CodeLocationRow where
  id : String
  task_id : String
  file_path : String
  start_line : Int
  end_line : Option Int
  git_branch : Option String
  git_commit : Option String
  created_at : Int
deriving DecidableEq, Repr

/-- A row of the `implementations` table (the Implementation entity shape). -/
structure ImplementationRow where
  id : String
  task_id : String
  pattern_type : String
  pattern_data : String
  success_rating : Option Rat
  created_at : Int
deriving DecidableEq, Repr

/-- TaskSchema (src/models/types.ts): id uuid, title non-empty, priority and
complexity integers in [1,5], status one of the four enum values; the
timestamps are plain numbers with no constraint. The `.int()` checks are
carried by the `Int` field type. -/
def TaskSchema (t : TaskRow) : Bool :=
  isUuid t.id && t.title.length ≥ 1 &&
    (1 ≤ t.priority && t.priority ≤ 5) &&
    (1 ≤ t.complexity && t.complexity ≤ 5) &&
    statusOk t.status

/-- CodeLocationSchema (src/models/types.ts): id and task_id uuids,
start_line a positive integer, end_line (when present) a positive integer;
file_path, git_branch, git_commit and created_at are unconstrained. -/
def CodeLocationSchema (c : CodeLocationRow) : Bool :=
  isUuid c.id && isUuid c.task_id && 1 ≤ c.start_line &&
    (match c.end_line with
     | none => true
     | some e => 1 ≤ e)

/-- ImplementationSchema (src/models/types.ts): id and task_id uuids,
success_rating (when present) in [0,1]. -/
def ImplementationSchema (i : ImplementationRow) : Bool :=
  isUuid i.id && isUuid i.task_id &&
    (match i.success_rating with
     | none => true
     | some r => 0 ≤ r && r ≤ 1)

/-- The database: the three tables, each a list of rows in insertion order. -/
structure DB where
  tasks : List TaskRow
  codeLocations : List CodeLocationRow
  implementations : List ImplementationRow
deriving Repr

/-- A `Partial<Task>` value: each field either present or absent. A field
explicitly present as `undefined` is not distinguishable from an absent one
in this embedding. -/
structure TaskPatch where
  id : Option String := none
  title : Option String := none
  description : Option String := none
  priority : Option Int := none
  complexity : Option Int := none
  status : Option String := none
  created_at : Option Int := none
  updated_at : Option Int := none
deriving Repr

/-- A `Partial<CodeLocation>` value. -/
structure CodeLocationPatch where
  id : Option String := none
  task_id : Option String := none
  file_path : Option String := none
  start_line : Option Int := none
  end_line : Option Int := none
  git_branch : Option String := none
  git_commit : Option String := none
  created_at : Option Int := none
deriving Repr

/-- A `Partial<Implementation>` value. -/
structure ImplementationPatch where
  id : Option String := none
  task_id : Option String := none
  pattern_type : Option String := none
  pattern_data : Option String := none
  success_rating : Option Rat := none
  created_at : Option Int := none
deriving Repr

/-- Present fields of a patch win over the old value (JS object spread). -/
def orKeep {α : Type} (patched old : Option α) : Option α :=
  match patched with
  | some v => some v
  | none => old

/-- The object-spread merge `{...existingTask, ...taskUpdate, updated_at: Date.now()}`
performed by SQLiteTaskRepository.update before re-validation: every present
patch field (including id and created_at) overrides, and updated_at is then
set to the current time. -/
def mergeTask (t : TaskRow) (p : TaskPatch) (now : Int) : TaskRow :=
  { id := p.id.getD t.id
    title := p.title.getD t.title
    description := orKeep p.description t.description
    priority := p.priority.getD t.priority
    complexity := p.complexity.getD t.complexity
    status := p.status.getD t.status
    created_at := p.created_at.getD t.created_at
    updated_at := now }

/-- The UPDATE statement of SQLiteTaskRepository: `coalesce(?, column)` for
title, description, priority, complexity and status, `updated_at = ?` with
the merge time; id and created_at are never written. -/
def sqlTaskUpdate (t : TaskRow) (p : TaskPatch) (now : Int) : TaskRow :=
  { t with
    title := p.title.getD t.title
    description := orKeep p.description t.description
    priority := p.priority.getD t.priority
    complexity := p.complexity.getD t.complexity
    status := p.status.getD t.status
    updated_at := now }

/-- Row filter built by SQLiteTaskRepository.findAll from a Partial<Task>:
one `AND column = ?` conjunct per defined filter field. -/
def matchesTaskFilter (f : TaskPatch) (t : TaskRow) : Bool :=
  (match f.id with | none => true | some v => t.id == v) &&
  (match f.title with | none => true | some v => t.title == v) &&
  (match f.description with | none => true | some v => t.description == some v) &&
  (match f.priority with | none => true | some v => t.priority == v) &&
  (match f.complexity with | none => true | some v => t.complexity == v) &&
  (match f.status with | none => true | some v => t.status == v) &&
  (match f.created_at with | none => true | some v => t.created_at == v) &&
  (match f.updated_at with | none => true | some v => t.updated_at == v)

/-- SQLiteTaskRepository.findById: SELECT the row, return null when absent,
otherwise re-validate with TaskSchema before returning; an invalid stored
row raises the distinguished "Invalid task data in database" validation
error. -/
def SQLiteTaskRepository.findById (db : DB) (id : String) : Except Err (Option TaskRow) :=
  match db.tasks.find? (fun t => t.id == id) with
  | none => .ok none
  | some t =>
      if TaskSchema t then .ok (some t)
      else .error (Err.validation "Invalid task data in database")

/-- SQLiteTaskRepository.findAll: SELECT with the dynamic filter, then
validate every fetched row; the first invalid row aborts the whole read
with the "Invalid task data in database" validation error. -/
def SQLiteTaskRepository.findAll (db : DB) (f : TaskPatch) : Except Err (List TaskRow) :=
  let rows := db.tasks.filter (matchesTaskFilter f)
  if rows.all TaskSchema then .ok rows
  else .error (Err.validation "Invalid task data in database")

/-- The `Omit<Task, 'id' | 'created_at' | 'updated_at'>` create argument. -/
structure TaskCreateInput where
  title : String
  description : Option String := none
  priority : Int
  complexity : Int
  status : String
deriving Repr

/-- SQLiteTaskRepository.create: build the row with a fresh uuid and
`created_at = updated_at = Date.now()`, validate it, then INSERT. A primary
key collision surfaces as a DatabaseError. -/
def SQLiteTaskRepository.create (db : DB) (input : TaskCreateInput) (newId : String) (now : Int) :
    Except Err TaskRow × DB :=
  let newTask : TaskRow :=
    { id := newId, title := input.title, description := input.description
      priority := input.priority, complexity := input.complexity
      status := input.status, created_at := now, updated_at := now }
  if TaskSchema newTask then
    if db.tasks.any (fun t => t.id == newId) then
      (.error (Err.database "Failed to create task"), db)
    else
      (.ok newTask, { db with tasks := db.tasks ++ [newTask] })
  else
    (.error (Err.validation "schema validation failed"), db)

/-- SQLiteTaskRepository.update: look the row up through findById (which
re-validates), raise NotFoundError when absent, merge the patch, re-validate
the merged task, and only then run the UPDATE statement. -/
def SQLiteTaskRepository.update (db : DB) (id : String) (p : TaskPatch) (now : Int) :
    Except Err TaskRow × DB :=
  match SQLiteTaskRepository.findById db id with
  | .error e => (.error e, db)
  | .ok none => (.error (Err.notFound "Task" id), db)
  | .ok (some t) =>
      let merged := mergeTask t p now
      if TaskSchema merged then
        (.ok merged,
         { db with tasks := db.tasks.map (fun r => if r.id == id then sqlTaskUpdate r p now else r) })
      else
        (.error (Err.validation "schema validation failed"), db)

/-- The `Omit<CodeLocation, 'id' | 'created_at'>` create argument. -/
structure CodeLocationCreateInput where
  task_id : String
  file_path : String
  start_line : Int
  end_line : Option Int := none
  git_branch : Option String := none
  git_commit : Option String := none
deriving Repr

/-- SQLiteCodeLocationRepository.create: build the row with a fresh uuid and
`created_at = Date.now()`, validate it, then INSERT; a primary key collision
surfaces as a DatabaseError. -/
def SQLiteCodeLocationRepository.create (db : DB) (input : CodeLocationCreateInput)
    (newId : String) (now : Int) : Except Err CodeLocationRow × DB :=
  let newLocation : CodeLocationRow :=
    { id := newId, task_id := input.task_id, file_path := input.file_path
      start_line := input.start_line, end_line := input.end_line
      git_branch := input.git_branch, git_commit := input.git_commit
      created_at := now }
  if CodeLocationSchema newLocation then
    if db.codeLocations.any (fun c => c.id == newId) then
      (.error (Err.database "Failed to create code location"), db)
    else
      (.ok newLocation, { db with codeLocations := db.codeLocations ++ [newLocation] })
  else
    (.error (Err.validation "schema validation failed"), db)

/-- SQLiteCodeLocationRepository.findByTaskId: SELECT all rows with the
given task_id and validate each; the first invalid row aborts the read with
the "Invalid code location data in database" validation error. -/
def SQLiteCodeLocationRepository.findByTaskId (db : DB) (taskId : String) :
    Except Err (List CodeLocationRow) :=
  let rows := db.codeLocations.filter (fun c => c.task_id == taskId)
  if rows.all CodeLocationSchema then .ok rows
  else .error (Err.validation "Invalid code location data in database")

/-- The object-spread merge `{...existingLocation, ...locationUpdate}` of
SQLiteCodeLocationRepository.update. -/
def mergeCodeLocation (c : CodeLocationRow) (p : CodeLocationPatch) : CodeLocationRow :=
  { id := p.id.getD c.id
    task_id := p.task_id.getD c.task_id
    file_path := p.file_path.getD c.file_path
    start_line := p.start_line.getD c.start_line
    end_line := orKeep p.end_line c.end_line
    git_branch := orKeep p.git_branch c.git_branch
    git_commit := orKeep p.git_commit c.git_commit
    created_at := p.created_at.getD c.created_at }

/-- The UPDATE statement of SQLiteCodeLocationRepository: `coalesce(?, column)`
for file_path, start_line, end_line, git_branch and git_commit; id, task_id
and created_at are never written. -/
def sqlCodeLocationUpdate (c : CodeLocationRow) (p : CodeLocationPatch) : CodeLocationRow :=
  { c with
    file_path := p.file_path.getD c.file_path
    start_line := p.start_line.getD c.start_line
    end_line := orKeep p.end_line c.end_line
    git_branch := orKeep p.git_branch c.git_branch
    git_commit := orKeep p.git_commit c.git_commit }

/-- SQLiteCodeLocationRepository.update: the existence check calls
findByTaskId with `locationUpdate.task_id ?? ''` and searches the result for
the id; when found, merge the patch, re-validate the merged row, and only
then run the UPDATE statement. -/
def SQLiteCodeLocationRepository.update (db : DB) (id : String) (p : CodeLocationPatch) :
    Except Err CodeLocationRow × DB :=
  match SQLiteCodeLocationRepository.findByTaskId db (p.task_id.getD "") with
  | .error e => (.error e, db)
  | .ok existingLocations =>
      match existingLocations.find? (fun c => c.id == id) with
      | none => (.error (Err.notFound "CodeLocation" id), db)
      | some existing =>
          let updated := mergeCodeLocation existing p
          if CodeLocationSchema updated then
            (.ok updated,
             { db with codeLocations :=
                 db.codeLocations.map (fun c => if c.id == id then sqlCodeLocationUpdate c p else c) })
          else
            (.error (Err.validation "schema validation failed"), db)

/-- SQLiteImplementationRepository.findByTaskId: SELECT all rows with the
given task_id and validate each; the first invalid row aborts the read with
the "Invalid implementation data in database" validation error. -/
def SQLiteImplementationRepository.findByTaskId (db : DB) (taskId : String) :
    Except Err (List ImplementationRow) :=
  let rows := db.implementations.filter (fun i => i.task_id == taskId)
  if rows.all ImplementationSchema then .ok rows
  else .error (Err.validation "Invalid implementation data in database")

/-- The `Omit<Implementation, 'id' | 'created_at'>` create argument. -/
structure ImplementationCreateInput where
  task_id : String
  pattern_type : String
  pattern_data : String
  success_rating : Option Rat := none
deriving Repr

/-- SQLiteImplementationRepository.create: build the row with a fresh uuid
and `created_at = Date.now()`, validate it, then INSERT. -/
def SQLiteImplementationRepository.create (db : DB) (input : ImplementationCreateInput)
    (newId : String) (now : Int) : Except Err ImplementationRow × DB :=
  let newImpl : ImplementationRow :=
    { id := newId, task_id := input.task_id, pattern_type := input.pattern_type
      pattern_data := input.pattern_data, success_rating := input.success_rating
      created_at := now }
  if ImplementationSchema newImpl then
    if db.implementations.any (fun i => i.id == newId) then
      (.error (Err.database "Failed to create implementation"), db)
    else
      (.ok newImpl, { db with implementations := db.implementations ++ [newImpl] })
  else
    (.error (Err.validation "schema validation failed"), db)

/-- The object-spread merge `{...existingImpl, ...implUpdate}` of
SQLiteImplementationRepository.update. -/
def mergeImplementation (i : ImplementationRow) (p : ImplementationPatch) : ImplementationRow :=
  { id := p.id.getD i.id
    task_id := p.task_id.getD i.task_id
    pattern_type := p.pattern_type.getD i.pattern_type
    pattern_data := p.pattern_data.getD i.pattern_data
    success_rating := orKeep p.success_rating i.success_rating
    created_at := p.created_at.getD i.created_at }

/-- The UPDATE statement of SQLiteImplementationRepository:
`coalesce(?, column)` for pattern_type, pattern_data and success_rating. -/
def sqlImplementationUpdate (i : ImplementationRow) (p : ImplementationPatch) : ImplementationRow :=
  { i with
    pattern_type := p.pattern_type.getD i.pattern_type
    pattern_data := p.pattern_data.getD i.pattern_data
    success_rating := orKeep p.success_rating i.success_rating }

/-- SQLiteImplementationRepository.update: the existence check calls
findByTaskId with `implUpdate.task_id ?? ''` and searches the result for the
id; when found, merge the patch, re-validate, then run the UPDATE. -/
def SQLiteImplementationRepository.update (db : DB) (id : String) (p : ImplementationPatch) :
    Except Err ImplementationRow × DB :=
  match SQLiteImplementationRepository.findByTaskId db (p.task_id.getD "") with
  | .error e => (.error e, db)
  | .ok existingImpls =>
      match existingImpls.find? (fun i => i.id == id) with
      | none => (.error (Err.notFound "Implementation" id), db)
      | some existing =>
          let updated := mergeImplementation existing p
          if ImplementationSchema updated then
            (.ok updated,
             { db with implementations :=
                 db.implementations.map (fun i => if i.id == id then sqlImplementationUpdate i p else i) })
          else
            (.error (Err.validation "schema validation failed"), db)

/-!
Git working copy model. The working copy is the external system driven
through simple-git. Its observable state is the checked-out branch, the
set of local branches, the HEAD commit, whether a conflicted merge or
rebase is in progress, whether the tree is clean, and the stash depth.
Whether a given merge or rebase conflicts, whether a branch has unmerged
commits, and whether `git pull` succeeds are properties of the repository
contents outside this model; they appear as oracle fields fixed per state.
Each operation returns the next state together with an optional error
message (`none` means success).
-/
structure GitState where
  current : String
  branches : List String
  headCommit : String
  midMerge : Bool
  midRebase : Bool
  clean : Bool
  stashed : Nat
  pullOk : Bool
  mergeConflict : String → String → Bool
  rebaseConflict : String → String → Bool
  unmerged : String → Bool

/-- `git checkout <b>`: succeeds exactly when the branch exists. -/
def gitCheckout (g : GitState) (b : String) : GitState × Option String :=
  if g.branches.contains b then ({ g with current := b }, none)
  else (g, some "pathspec did not match any file known to git")

/-- `git checkout -b <b> <from>` (simple-git checkoutBranch): fails when the
branch already exists or the start point does not; otherwise creates the
branch and switches to it. -/
def gitCheckoutBranch (g : GitState) (b fromBranch : String) : GitState × Option String :=
  if g.branches.contains b then (g, some "branch already exists")
  else if g.branches.contains fromBranch then
    ({ g with current := b, branches := b :: g.branches }, none)
  else (g, some "not a valid object name")

/-- `git merge <b>` into the current branch: fails when `b` does not exist;
merging the current branch into itself is an up-to-date no-op; a conflicting
merge leaves the working copy mid-merge; a successful merge makes `b` fully
merged (so it can later be deleted without force). -/
def gitMerge (g : GitState) (b : String) : GitState × Option String :=
  if g.branches.contains b then
    if b == g.current then (g, none)
    else if g.mergeConflict b g.current then
      ({ g with midMerge := true }, some "merge conflict")
    else
      ({ g with unmerged := fun x => if x == b then false else g.unmerged x }, none)
  else (g, some "not something we can merge")

/-- `git merge --abort`: clears a conflicted merge; errors when no merge is
in progress. -/
def gitMergeAbort (g : GitState) : GitState × Option String :=
  if g.midMerge then ({ g with midMerge := false }, none)
  else (g, some "there is no merge to abort")

/-- `git rebase <target>` of the current branch: fails when the target does
not exist; a conflicting rebase leaves the working copy mid-rebase. -/
def gitRebase (g : GitState) (target : String) : GitState × Option String :=
  if g.branches.contains target then
    if g.rebaseConflict g.current target then
      ({ g with midRebase := true }, some "rebase conflict")
    else (g, none)
  else (g, some "invalid upstream")

/-- `git rebase --abort`: clears a conflicted rebase (returning to the
branch being rebased); errors when no rebase is in progress. -/
def gitRebaseAbort (g : GitState) : GitState × Option String :=
  if g.midRebase then ({ g with midRebase := false }, none)
  else (g, some "no rebase in progress")

/-- `git branch -d <b>` (or `-D` when force): fails when the branch does not
exist, is checked out, or (without force) has unmerged commits. -/
def gitDeleteBranch (g : GitState) (b : String) (force : Bool) : GitState × Option String :=
  if g.branches.contains b then
    if b == g.current then (g, some "cannot delete checked out branch")
    else if !force && g.unmerged b then (g, some "branch is not fully merged")
    else ({ g with branches := g.branches.erase b }, none)
  else (g, some "branch not found")

/-- `git pull`: success is an oracle of the state. -/
def gitPull (g : GitState) : GitState × Option String :=
  if g.pullOk then (g, none) else (g, some "pull failed")

/-- `git stash save`: records the dirty tree and leaves a clean one. -/
def gitStash (g : GitState) : GitState × Option String :=
  ({ g with stashed := g.stashed + 1, clean := true }, none)

/-- `git stash pop`: restores the most recent stash entry; errors when the
stash is empty. -/
def gitStashPop (g : GitState) : GitState × Option String :=
  match g.stashed with
  | 0 => (g, some "no stash entries found")
  | n + 1 => ({ g with stashed := n, clean := false }, none)

/-- TaskService instance state: the shared database, the git working copy it
drives, and the lazily-cached main branch name (`this.mainBranch`). -/
structure Svc where
  db : DB
  git : GitState
  mainBranch : Option String

/-- TaskService.getMainBranch: on first use, record the currently checked
out branch as the main branch; afterwards return the cached name. -/
def TaskService.getMainBranch (s : Svc) : String × Svc :=
  match s.mainBranch with
  | some m => (m, s)
  | none => (s.git.current, { s with mainBranch := some s.git.current })

/-- The createTask options argument. -/
structure CreateTaskOptions where
  title : String
  description : Option String := none
  priority : Int
  complexity : Int
  initialFilePath : Option (String × Int × Option Int) := none
deriving Repr

/-- TaskService.createTask: (1) persist the Task row with status created;
(2) create and switch to branch `task/<id>` off the main branch, wrapping a
failure as a GitError; (3) persist the initial code location when supplied.
The catch block cleans the branch up (checkout main, then delete, errors
ignored) only when the error is a GitError and the task row was persisted,
and always rethrows; the Task row is never rolled back. `newTaskId` and
`newLocId` stand for the uuids generated inside the repositories. -/
def TaskService.createTask (s : Svc) (options : CreateTaskOptions)
    (newTaskId newLocId : String) (now : Int) : Except Err TaskRow × Svc :=
  match SQLiteTaskRepository.create s.db
      { title := options.title, description := options.description
        priority := options.priority, complexity := options.complexity
        status := "created" } newTaskId now with
  | (.error e, db1) => (.error e, { s with db := db1 })
  | (.ok createdTask, db1) =>
      let branchName := "task/" ++ createdTask.id
      let (mainBranch, s1) := TaskService.getMainBranch { s with db := db1 }
      match gitCheckoutBranch s1.git branchName mainBranch with
      | (g1, some _) =>
          -- GitError: best-effort cleanup, then propagate the branch error
          let (g2, r2) := gitCheckout g1 mainBranch
          let g3 := if r2 == none then (gitDeleteBranch g2 branchName false).1 else g2
          (.error (Err.git ("Failed to create branch " ++ branchName)), { s1 with git := g3 })
      | (g1, none) =>
          match options.initialFilePath with
          | none => (.ok createdTask, { s1 with git := g1 })
          | some (filePath, startLine, endLine) =>
              match SQLiteCodeLocationRepository.create s1.db
                  { task_id := createdTask.id, file_path := filePath
                    start_line := startLine, end_line := endLine
                    git_branch := some branchName } newLocId now with
              | (.ok _, db2) => (.ok createdTask, { s1 with db := db2, git := g1 })
              | (.error e, db2) =>
                  -- not a GitError: the catch block rethrows without cleanup
                  (.error e, { s1 with db := db2, git := g1 })

/-- TaskService.addCodeLocation: require the task to exist, require the
checked-out branch to equal `task/<taskId>` (otherwise a GitError), then
persist the location tagged with the branch and the HEAD commit. Non-git
failures inside the try block are wrapped as DatabaseError. -/
def TaskService.addCodeLocation (s : Svc) (taskId : String)
    (filePath : String) (startLine : Int) (endLine : Option Int)
    (newId : String) (now : Int) : Except Err CodeLocationRow × Svc :=
  match SQLiteTaskRepository.findById s.db taskId with
  | .error e => (.error e, s)
  | .ok none => (.error (Err.notFound "Task" taskId), s)
  | .ok (some _) =>
      let branchName := "task/" ++ taskId
      if s.git.current == branchName then
        match SQLiteCodeLocationRepository.create s.db
            { task_id := taskId, file_path := filePath
              start_line := startLine, end_line := endLine
              git_branch := some branchName, git_commit := some s.git.headCommit }
            newId now with
        | (.ok loc, db1) => (.ok loc, { s with db := db1 })
        | (.error _, db1) =>
            (.error (Err.database "Failed to add code location"), { s with db := db1 })
      else
        (.error (Err.git ("Must be on task branch " ++ branchName ++ " to add code location")), s)

/-- TaskService.recordImplementation: require the task to exist, then
persist the implementation row; no branch-service interaction. -/
def TaskService.recordImplementation (s : Svc) (taskId patternType patternData : String)
    (successRating : Option Rat) (newId : String) (now : Int) :
    Except Err ImplementationRow × Svc :=
  match SQLiteTaskRepository.findById s.db taskId with
  | .error e => (.error e, s)
  | .ok none => (.error (Err.notFound "Task" taskId), s)
  | .ok (some _) =>
      match SQLiteImplementationRepository.create s.db
          { task_id := taskId, pattern_type := patternType
            pattern_data := patternData, success_rating := successRating } newId now with
      | (.ok impl, db1) => (.ok impl, { s with db := db1 })
      | (.error e, db1) => (.error e, { s with db := db1 })

/-- TaskService.getTaskWithDetails: fan-out read of the task plus its code
locations and implementations; not-found when the task row is absent. The
parallel Promise.all of the two findByTaskId reads is sequenced with the
code-location read first. -/
def TaskService.getTaskWithDetails (db : DB) (taskId : String) :
    Except Err (TaskRow × List CodeLocationRow × List ImplementationRow) :=
  match SQLiteTaskRepository.findById db taskId with
  | .error e => .error e
  | .ok none => .error (Err.notFound "Task" taskId)
  | .ok (some task) =>
      match SQLiteCodeLocationRepository.findByTaskId db taskId with
      | .error e => .error e
      | .ok codeLocations =>
          match SQLiteImplementationRepository.findByTaskId db taskId with
          | .error e => .error e
          | .ok implementations => .ok (task, codeLocations, implementations)

/-- TaskService.updateTaskStatus: require the task to exist, then write the
given status through the repository. -/
def TaskService.updateTaskStatus (s : Svc) (taskId status : String) (now : Int) :
    Except Err TaskRow × Svc :=
  match SQLiteTaskRepository.findById s.db taskId with
  | .error e => (.error e, s)
  | .ok none => (.error (Err.notFound "Task" taskId), s)
  | .ok (some _) =>
      match SQLiteTaskRepository.update s.db taskId { status := some status } now with
      | (.ok t, db1) => (.ok t, { s with db := db1 })
      | (.error e, db1) => (.error e, { s with db := db1 })

/-- The catch block of TaskService.completeTask: try to abort any ongoing
merge (its own failure ignored), write the task's previous status back, and
raise the GitError; an error from the compensating write would propagate in
its place. -/
def TaskService.completeTaskCatch (s : Svc) (task : TaskRow) (taskId : String) (now : Int) :
    Except Err Unit × Svc :=
  let gA := (gitMergeAbort s.git).1
  match SQLiteTaskRepository.update s.db taskId { status := some task.status } now with
  | (.ok _, dbR) => (.error (Err.git "Failed to complete task"), { s with db := dbR, git := gA })
  | (.error e, dbR) => (.error e, { s with db := dbR, git := gA })

/-- TaskService.completeTask: require the task to exist, resolve the main
branch, write status completed, and return successfully when no branch
`task/<taskId>` exists (already-completed path). Otherwise switch to the
main branch when necessary, merge the task branch, delete it without force;
any git failure runs the catch block, which compensates the status write
and raises a GitError. -/
def TaskService.completeTask (s : Svc) (taskId : String) (now : Int) :
    Except Err Unit × Svc :=
  match SQLiteTaskRepository.findById s.db taskId with
  | .error e => (.error e, s)
  | .ok none => (.error (Err.notFound "Task" taskId), s)
  | .ok (some task) =>
      let branchName := "task/" ++ taskId
      let (mainBranch, s1) := TaskService.getMainBranch s
      match SQLiteTaskRepository.update s1.db taskId { status := some "completed" } now with
      | (.error e, db1) => (.error e, { s1 with db := db1 })
      | (.ok _, db1) =>
          let s2 := { s1 with db := db1 }
          if s2.git.branches.contains branchName then
            match (if s2.git.current == mainBranch then (s2.git, none)
                   else gitCheckout s2.git mainBranch) with
            | (g1, some _) => TaskService.completeTaskCatch { s2 with git := g1 } task taskId now
            | (g1, none) =>
                match gitMerge g1 branchName with
                | (g2, some _) => TaskService.completeTaskCatch { s2 with git := g2 } task taskId now
                | (g2, none) =>
                    match gitDeleteBranch g2 branchName false with
                    | (g3, some _) =>
                        TaskService.completeTaskCatch { s2 with git := g3 } task taskId now
                    | (g3, none) => (.ok (), { s2 with git := g3 })
          else
            (.ok (), s2)

/-- RealGitService.rebaseBranch: check out the source branch, rebase it onto
the target; on failure, attempt `rebase --abort` (its own failure ignored)
and raise a GitError. -/
def RealGitService.rebaseBranch (g : GitState) (src target : String) : GitState × Option Err :=
  match gitCheckout g src with
  | (g1, some _) =>
      let g2 := (gitRebaseAbort g1).1
      (g2, some (Err.git ("Failed to rebase " ++ src ++ " onto " ++ target)))
  | (g1, none) =>
      match gitRebase g1 target with
      | (g2, none) => (g2, none)
      | (g2, some _) =>
          let g3 := (gitRebaseAbort g2).1
          (g3, some (Err.git ("Failed to rebase " ++ src ++ " onto " ++ target)))

/-- The catch block of RealGitService.completeTask: `merge --abort` followed
by `rebase --abort`, both inside one try whose failure is ignored - so when
the merge abort fails, the rebase abort is never attempted. -/
def RealGitService.completeTaskCatch (g : GitState) : GitState :=
  match gitMergeAbort g with
  | (gA, none) => (gitRebaseAbort gA).1
  | (gA, some _) => gA

/-- RealGitService.completeTask: stash a dirty tree, switch to the main
branch when necessary, pull, check out the task branch and rebase it onto
main, switch back to main and merge, pop the stash when one was made, and
force-delete the task branch. Any failure runs the catch block and raises a
GitError. The cached main branch (`this.mainBranch`) is threaded as
`cache`. -/
def RealGitService.completeTask (g : GitState) (cache : Option String) (taskId : String) :
    Except Err Unit × GitState × Option String :=
  let branchName := "task/" ++ taskId
  let mainBranch := cache.getD g.current
  let cache1 := some mainBranch
  let stashedFlag := !g.clean
  let g0 := if !g.clean then (gitStash g).1 else g
  match (if g0.current == mainBranch then (g0, none) else gitCheckout g0 mainBranch) with
  | (g1, some _) =>
      (.error (Err.git "Failed to complete task"), RealGitService.completeTaskCatch g1, cache1)
  | (g1, none) =>
      match gitPull g1 with
      | (g2, some _) =>
          (.error (Err.git "Failed to complete task"), RealGitService.completeTaskCatch g2, cache1)
      | (g2, none) =>
          match gitCheckout g2 branchName with
          | (g3, some _) =>
              (.error (Err.git "Failed to complete task"), RealGitService.completeTaskCatch g3, cache1)
          | (g3, none) =>
              match RealGitService.rebaseBranch g3 branchName mainBranch with
              | (g4, some _) =>
                  (.error (Err.git "Failed to complete task"), RealGitService.completeTaskCatch g4, cache1)
              | (g4, none) =>
                  match gitCheckout g4 mainBranch with
                  | (g5, some _) =>
                      (.error (Err.git "Failed to complete task"), RealGitService.completeTaskCatch g5, cache1)
                  | (g5, none) =>
                      match gitMerge g5 branchName with
                      | (g6, some _) =>
                          (.error (Err.git "Failed to complete task"), RealGitService.completeTaskCatch g6, cache1)
                      | (g6, none) =>
                          match (if stashedFlag then gitStashPop g6 else (g6, none)) with
                          | (g7, some _) =>
                              (.error (Err.git "Failed to complete task"), RealGitService.completeTaskCatch g7, cache1)
                          | (g7, none) =>
                              match gitDeleteBranch g7 branchName true with
                              | (g8, some _) =>
                                  (.error (Err.git "Failed to complete task"), RealGitService.completeTaskCatch g8, cache1)
                              | (g8, none) => (.ok (), g8, cache1)

/-- MockGitService state: an in-memory current branch, branch set, and a
branch-to-commit map. -/
structure MockGit where
  current : String
  branches : List String
  commits : List (String × String)
deriving DecidableEq, Repr

/-- Map.set on the mock's commit map. -/
def mockSetCommit (l : List (String × String)) (k v : String) : List (String × String) :=
  (k, v) :: l.filter (fun kv => kv.1 != k)

/-- MockGitService.completeTask: fail when the task branch does not exist;
otherwise copy its commit to master, drop the branch and its commit entry,
and switch to master. -/
def MockGitService.completeTask (m : MockGit) (taskId : String) : Except Err Unit × MockGit :=
  let branchName := "task/" ++ taskId
  if m.branches.contains branchName then
    let commits1 :=
      match m.commits.lookup branchName with
      | some c => mockSetCommit m.commits "master" c
      | none => m.commits
    (.ok (),
     { current := "master", branches := m.branches.erase branchName
       commits := commits1.filter (fun kv => kv.1 != branchName) })
  else
    (.error (Err.git ("Branch " ++ branchName ++ " not found")), m)

/-!
Helper lemmas shared by the claim theorems.
-/

/-- Unpacking a successful findById: the row was fetched and validated. -/
theorem findById_ok_some (db : DB) (id : String) (t : TaskRow)
    (h : SQLiteTaskRepository.findById db id = .ok (some t)) :
    db.tasks.find? (fun r => r.id == id) = some t ∧ TaskSchema t = true := by
  unfold SQLiteTaskRepository.findById at h
  cases hf : db.tasks.find? (fun r => r.id == id) with
  | none => rw [hf] at h; simp at h
  | some r =>
      rw [hf] at h
      cases hv : TaskSchema r with
      | true =>
          simp only [hv, if_true] at h
          simp only [Except.ok.injEq, Option.some.injEq] at h
          subst h
          exact ⟨rfl, hv⟩
      | false => simp [hv] at h

/-- Replacing rows in place by a key-preserving function commutes with
looking a key up. -/
theorem find_map_keyed {α : Type} (l : List α) (key : α → String) (id : String)
    (f : α → α) (hf : ∀ a, key (f a) = key a) :
    (l.map (fun a => if key a == id then f a else a)).find? (fun a => key a == id) =
      (l.find? (fun a => key a == id)).map f := by
  induction l with
  | nil => rfl
  | cons a l ih =>
      cases h : (key a == id) with
      | true =>
          simp only [List.map_cons, h, if_true]
          rw [List.find?_cons_of_pos, List.find?_cons_of_pos]
          · rfl
          · exact h
          · rw [hf]; exact h
      | false =>
          simp only [List.map_cons, h, if_false]
          rw [List.find?_cons_of_neg, List.find?_cons_of_neg]
          · exact ih
          · exact (by simp [h])
          · exact (by simp [h])

/-- C6: every repository read (Task findById, Task findAll, CodeLocation and
Implementation findByTaskId) re-validates each fetched row against its
entity schema: a returned row always validates and comes from storage, and
a fetched row that fails validation makes the operation raise the
"invalid ... data in database" validation error instead of returning it. -/
theorem repositories_revalidate_reads :
    (∀ db id t, SQLiteTaskRepository.findById db id = .ok (some t) →
       TaskSchema t = true ∧ t ∈ db.tasks) ∧
    (∀ db id t, db.tasks.find? (fun r => r.id == id) = some t → TaskSchema t = false →
       SQLiteTaskRepository.findById db id =
         .error (Err.validation "Invalid task data in database")) ∧
    (∀ db f rows, SQLiteTaskRepository.findAll db f = .ok rows →
       ∀ t ∈ rows, TaskSchema t = true ∧ t ∈ db.tasks) ∧
    (∀ db f t, t ∈ db.tasks → matchesTaskFilter f t = true → TaskSchema t = false →
       SQLiteTaskRepository.findAll db f =
         .error (Err.validation "Invalid task data in database")) ∧
    (∀ db taskId rows, SQLiteCodeLocationRepository.findByTaskId db taskId = .ok rows →
       ∀ c ∈ rows, CodeLocationSchema c = true ∧ c ∈ db.codeLocations) ∧
    (∀ db taskId c, c ∈ db.codeLocations → c.task_id = taskId → CodeLocationSchema c = false →
       SQLiteCodeLocationRepository.findByTaskId db taskId =
         .error (Err.validation "Invalid code location data in database")) ∧
    (∀ db taskId rows, SQLiteImplementationRepository.findByTaskId db taskId = .ok rows →
       ∀ i ∈ rows, ImplementationSchema i = true ∧ i ∈ db.implementations) ∧
    (∀ db taskId i, i ∈ db.implementations → i.task_id = taskId → ImplementationSchema i = false →
       SQLiteImplementationRepository.findByTaskId db taskId =
         .error (Err.validation "Invalid implementation data in database")) := by
  refine ⟨?_, ?_, ?_, ?_, ?_, ?_, ?_, ?_⟩
  · intro db id t h
    have hf := findById_ok_some db id t h
    exact ⟨hf.2, List.mem_of_find?_eq_some hf.1⟩
  · intro db id t hfind hbad
    unfold SQLiteTaskRepository.findById
    rw [hfind]
    simp [hbad]
  · intro db f rows h t ht
    unfold SQLiteTaskRepository.findAll at h
    cases hall : (db.tasks.filter (matchesTaskFilter f)).all TaskSchema with
    | true =>
        simp only [hall, if_true] at h
        simp only [Except.ok.injEq] at h
        subst h
        exact ⟨List.all_eq_true.mp hall t ht, (List.mem_filter.mp ht).1⟩
    | false => simp [hall] at h
  · intro db f t ht hmatch hbad
    unfold SQLiteTaskRepository.findAll
    cases hall : (db.tasks.filter (matchesTaskFilter f)).all TaskSchema with
    | true =>
        have := List.all_eq_true.mp hall t (List.mem_filter.mpr ⟨ht, hmatch⟩)
        rw [hbad] at this
        cases this
    | false => simp [hall]
  · intro db taskId rows h c hc
    unfold SQLiteCodeLocationRepository.findByTaskId at h
    cases hall : (db.codeLocations.filter (fun c => c.task_id == taskId)).all CodeLocationSchema with
    | true =>
        simp only [hall, if_true] at h
        simp only [Except.ok.injEq] at h
        subst h
        exact ⟨List.all_eq_true.mp hall c hc, (List.mem_filter.mp hc).1⟩
    | false => simp [hall] at h
  · intro db taskId c hc hid hbad
    unfold SQLiteCodeLocationRepository.findByTaskId
    cases hall : (db.codeLocations.filter (fun c => c.task_id == taskId)).all CodeLocationSchema with
    | true =>
        have := List.all_eq_true.mp hall c (List.mem_filter.mpr ⟨hc, by simp [hid]⟩)
        rw [hbad] at this
        cases this
    | false => simp [hall]
  · intro db taskId rows h i hi
    unfold SQLiteImplementationRepository.findByTaskId at h
    cases hall : (db.implementations.filter (fun i => i.task_id == taskId)).all ImplementationSchema with
    | true =>
        simp only [hall, if_true] at h
        simp only [Except.ok.injEq] at h
        subst h
        exact ⟨List.all_eq_true.mp hall i hi, (List.mem_filter.mp hi).1⟩
    | false => simp [hall] at h
  · intro db taskId i hi hid hbad
    unfold SQLiteImplementationRepository.findByTaskId
    cases hall : (db.implementations.filter (fun i => i.task_id == taskId)).all ImplementationSchema with
    | true =>
        have := List.all_eq_true.mp hall i (List.mem_filter.mpr ⟨hi, by simp [hid]⟩)
        rw [hbad] at this
        cases this
    | false => simp [hall]

/-- Concrete stored task row whose priority 7 violates TaskSchema. -/
def badTaskC6 : TaskRow :=
  { id := "11111111-1111-1111-1111-111111111111", title := "t", description := none
    priority := 7, complexity := 3, status := "created", created_at := 0, updated_at := 0 }

/-- Concrete database holding the corrupt task row. -/
def dbC6 : DB := { tasks := [badTaskC6], codeLocations := [], implementations := [] }

/-- Witness for C6: reading the concrete corrupt row through findById
raises the "Invalid task data in database" validation error. -/
theorem repositories_revalidate_reads_witness :
    SQLiteTaskRepository.findById dbC6 "11111111-1111-1111-1111-111111111111" =
      .error (Err.validation "Invalid task data in database") :=
  repositories_revalidate_reads.2.1 dbC6 "11111111-1111-1111-1111-111111111111" badTaskC6
    (by decide) (by decide)

/-- Decomposition of a successful TaskSchema validation. -/
theorem TaskSchema_parts (t : TaskRow) (h : TaskSchema t = true) :
    isUuid t.id = true ∧ t.title.length ≥ 1 ∧
      (1 ≤ t.priority ∧ t.priority ≤ 5) ∧ (1 ≤ t.complexity ∧ t.complexity ≤ 5) ∧
      statusOk t.status = true := by
  simp only [TaskSchema, Bool.and_eq_true, decide_eq_true_eq] at h
  exact ⟨h.1.1.1.1, h.1.1.1.2, h.1.1.2, h.1.2, h.2⟩

/-- A validated code location has a uuid task_id. -/
theorem CodeLocationSchema_task_id (c : CodeLocationRow) (h : CodeLocationSchema c = true) :
    isUuid c.task_id = true := by
  simp only [CodeLocationSchema, Bool.and_eq_true] at h
  exact h.1.1.2

/-- A validated implementation has a uuid task_id. -/
theorem ImplementationSchema_task_id (i : ImplementationRow)
    (h : ImplementationSchema i = true) : isUuid i.task_id = true := by
  simp only [ImplementationSchema, Bool.and_eq_true] at h
  exact h.1.2

/-- In a table whose rows all validate, no code location carries the empty
task_id (uuids are never empty). -/
theorem cl_filter_empty_task_id (l : List CodeLocationRow)
    (h : ∀ c ∈ l, CodeLocationSchema c = true) :
    l.filter (fun c => c.task_id == "") = [] := by
  induction l with
  | nil => rfl
  | cons c l ih =>
      have hc := h c (List.mem_cons_self c l)
      have hne : (c.task_id == "") = false := by
        cases hq : (c.task_id == "") with
        | false => rfl
        | true =>
            have heq : c.task_id = "" := eq_of_beq hq
            have := CodeLocationSchema_task_id c hc
            rw [heq] at this
            exact absurd this (by decide)
      simp only [List.filter_cons, hne, Bool.false_eq_true, if_false]
      exact ih (fun x hx => h x (List.mem_cons_of_mem c hx))

/-- In a table whose rows all validate, no implementation carries the empty
task_id. -/
theorem impl_filter_empty_task_id (l : List ImplementationRow)
    (h : ∀ i ∈ l, ImplementationSchema i = true) :
    l.filter (fun i => i.task_id == "") = [] := by
  induction l with
  | nil => rfl
  | cons i l ih =>
      have hi := h i (List.mem_cons_self i l)
      have hne : (i.task_id == "") = false := by
        cases hq : (i.task_id == "") with
        | false => rfl
        | true =>
            have heq : i.task_id = "" := eq_of_beq hq
            have := ImplementationSchema_task_id i hi
            rw [heq] at this
            exact absurd this (by decide)
      simp only [List.filter_cons, hne, Bool.false_eq_true, if_false]
      exact ih (fun x hx => h x (List.mem_cons_of_mem i hx))

/-- C10: when the partial passed to CodeLocation or Implementation update
does not include task_id, the existence check runs findByTaskId on the
empty string, finds nothing (stored task_ids are uuids, never empty), and
the operation raises NotFoundError with the database untouched - even when
a row with the requested id exists. -/
theorem update_without_task_id_not_found :
    (∀ db id (p : CodeLocationPatch), p.task_id = none →
       (∀ c ∈ db.codeLocations, CodeLocationSchema c = true) →
       SQLiteCodeLocationRepository.update db id p =
         (.error (Err.notFound "CodeLocation" id), db)) ∧
    (∀ db id (q : ImplementationPatch), q.task_id = none →
       (∀ i ∈ db.implementations, ImplementationSchema i = true) →
       SQLiteImplementationRepository.update db id q =
         (.error (Err.notFound "Implementation" id), db)) := by
  constructor
  · intro db id p hp hvalid
    unfold SQLiteCodeLocationRepository.update SQLiteCodeLocationRepository.findByTaskId
    rw [hp]
    simp only [Option.getD_none]
    rw [cl_filter_empty_task_id db.codeLocations hvalid]
    rfl
  · intro db id q hq hvalid
    unfold SQLiteImplementationRepository.update SQLiteImplementationRepository.findByTaskId
    rw [hq]
    simp only [Option.getD_none]
    rw [impl_filter_empty_task_id db.implementations hvalid]
    rfl

/-- Concrete stored, valid code location and implementation rows. -/
def locC10 : CodeLocationRow :=
  { id := "22222222-2222-2222-2222-222222222222"
    task_id := "11111111-1111-1111-1111-111111111111"
    file_path := "src/x.ts", start_line := 1, end_line := some 10
    git_branch := some "task/11111111-1111-1111-1111-111111111111"
    git_commit := none, created_at := 0 }

/-- Concrete stored, valid implementation row. -/
def implC10 : ImplementationRow :=
  { id := "33333333-3333-3333-3333-333333333333"
    task_id := "11111111-1111-1111-1111-111111111111"
    pattern_type := "refactoring", pattern_data := "d"
    success_rating := none, created_at := 0 }

/-- Concrete database where both rows exist. -/
def dbC10 : DB := { tasks := [], codeLocations := [locC10], implementations := [implC10] }

/-- Witness for C10: updating the existing rows with a task_id-less partial
fails with NotFoundError on both repositories. -/
theorem update_without_task_id_not_found_witness :
    SQLiteCodeLocationRepository.update dbC10 "22222222-2222-2222-2222-222222222222"
        { file_path := some "src/y.ts" } =
      (.error (Err.notFound "CodeLocation" "22222222-2222-2222-2222-222222222222"), dbC10) ∧
    SQLiteImplementationRepository.update dbC10 "33333333-3333-3333-3333-333333333333"
        { pattern_data := some "e" } =
      (.error (Err.notFound "Implementation" "33333333-3333-3333-3333-333333333333"), dbC10) :=
  ⟨update_without_task_id_not_found.1 dbC10 "22222222-2222-2222-2222-222222222222"
      { file_path := some "src/y.ts" } rfl (by decide),
   update_without_task_id_not_found.2 dbC10 "33333333-3333-3333-3333-333333333333"
      { pattern_data := some "e" } rfl (by decide)⟩

/-- C7: repository update merges the partial onto the existing validated
entity and re-validates the merged result before touching storage: when the
merged entity fails schema validation, the operation raises a validation
error and the database value is returned unchanged. Stated for the Task and
CodeLocation repositories (the two cited implementations). -/
theorem update_validates_before_write :
    (∀ db id (p : TaskPatch) now t,
       db.tasks.find? (fun r => r.id == id) = some t →
       TaskSchema t = true →
       TaskSchema (mergeTask t p now) = false →
       SQLiteTaskRepository.update db id p now =
         (.error (Err.validation "schema validation failed"), db)) ∧
    (∀ db id (p : CodeLocationPatch) rows c,
       SQLiteCodeLocationRepository.findByTaskId db (p.task_id.getD "") = .ok rows →
       rows.find? (fun r => r.id == id) = some c →
       CodeLocationSchema (mergeCodeLocation c p) = false →
       SQLiteCodeLocationRepository.update db id p =
         (.error (Err.validation "schema validation failed"), db)) := by
  constructor
  · intro db id p now t hfind hvalid hbad
    unfold SQLiteTaskRepository.update SQLiteTaskRepository.findById
    rw [hfind]
    simp [hvalid, hbad]
  · intro db id p rows c hrows hfind hbad
    unfold SQLiteCodeLocationRepository.update
    rw [hrows]
    simp [hfind, hbad]

/-- Concrete valid task row used by the C7 witness. -/
def taskC7 : TaskRow :=
  { id := "11111111-1111-1111-1111-111111111111", title := "t", description := none
    priority := 3, complexity := 3, status := "created", created_at := 0, updated_at := 0 }

/-- Concrete database used by the C7 witness. -/
def dbC7 : DB := { tasks := [taskC7], codeLocations := [locC10], implementations := [] }

/-- Witness for C7: a priority-9 task patch and a start-line-0 location
patch both fail merge-validation, raise a validation error and leave the
database value unchanged. -/
theorem update_validates_before_write_witness :
    SQLiteTaskRepository.update dbC7 "11111111-1111-1111-1111-111111111111"
        { priority := some 9 } 5 =
      (.error (Err.validation "schema validation failed"), dbC7) ∧
    SQLiteCodeLocationRepository.update dbC7 "22222222-2222-2222-2222-222222222222"
        { task_id := some "11111111-1111-1111-1111-111111111111", start_line := some 0 } =
      (.error (Err.validation "schema validation failed"), dbC7) :=
  ⟨update_validates_before_write.1 dbC7 "11111111-1111-1111-1111-111111111111"
      { priority := some 9 } 5 taskC7 (by decide) (by decide) (by decide),
   update_validates_before_write.2 dbC7 "22222222-2222-2222-2222-222222222222"
      { task_id := some "11111111-1111-1111-1111-111111111111", start_line := some 0 }
      [locC10] locC10 (by rfl) (by decide) (by decide)⟩

/-- A statusOk string is one of the four enum values. -/
theorem statusOk_cases (s : String) (h : statusOk s = true) :
    s = "created" ∨ s = "in_progress" ∨ s = "paused" ∨ s = "completed" := by
  simp only [statusOk, Bool.or_eq_true, beq_iff_eq] at h
  tauto

/-- When the merged task validates, the row actually written by the UPDATE
statement (which keeps id and created_at) also validates, for any valid
stored row sharing the id. -/
theorem TaskSchema_sqlTaskUpdate (r t : TaskRow) (p : TaskPatch) (now now2 : Int)
    (hr : TaskSchema r = true) (hm : TaskSchema (mergeTask t p now2) = true) :
    TaskSchema (sqlTaskUpdate r p now) = true := by
  obtain ⟨hrid, hrtitle, hrp, hrc, hrs⟩ := TaskSchema_parts r hr
  obtain ⟨hmid, hmtitle, hmp, hmc, hms⟩ := TaskSchema_parts _ hm
  simp only [mergeTask] at hmtitle hmp hmc hms
  simp only [TaskSchema, sqlTaskUpdate, Bool.and_eq_true, decide_eq_true_eq]
  cases hp : p.title <;> cases hpr : p.priority <;> cases hpc : p.complexity <;>
    cases hps : p.status <;> simp_all [Option.getD]

/-- C8 (amended): tasks persisted or returned by the repository satisfy the
schema-checked invariant - priority and complexity in [1,5] and status one
of the four enum values - and create returns equal timestamps; but the
relation updated_at >= created_at is not validated: it can be broken by an
update whose partial carries created_at (see the counterexample). -/
theorem task_schema_invariant :
    (∀ db (input : TaskCreateInput) newId now t db',
       SQLiteTaskRepository.create db input newId now = (.ok t, db') →
       TaskSchema t = true ∧ t.updated_at = t.created_at ∧ db'.tasks = db.tasks ++ [t]) ∧
    (∀ db id (p : TaskPatch) now t db',
       SQLiteTaskRepository.update db id p now = (.ok t, db') →
       TaskSchema t = true ∧
         ((∀ r ∈ db.tasks, TaskSchema r = true) → ∀ r ∈ db'.tasks, TaskSchema r = true)) ∧
    (∀ t, TaskSchema t = true →
       (1 ≤ t.priority ∧ t.priority ≤ 5) ∧ (1 ≤ t.complexity ∧ t.complexity ≤ 5) ∧
       (t.status = "created" ∨ t.status = "in_progress" ∨ t.status = "paused" ∨
         t.status = "completed")) := by
  refine ⟨?_, ?_, ?_⟩
  · intro db input newId now t db' h
    unfold SQLiteTaskRepository.create at h
    dsimp only at h
    split at h
    case isTrue hv =>
      split at h
      case isTrue hdup => simp at h
      case isFalse hdup =>
        simp only [Prod.mk.injEq, Except.ok.injEq] at h
        obtain ⟨ht, hdb⟩ := h
        subst ht
        exact ⟨hv, rfl, by rw [← hdb]⟩
    case isFalse hv => simp at h
  · intro db id p now t db' h
    unfold SQLiteTaskRepository.update at h
    cases hfind : SQLiteTaskRepository.findById db id with
    | error e => rw [hfind] at h; simp at h
    | ok o =>
        cases o with
        | none => rw [hfind] at h; simp at h
        | some r =>
            rw [hfind] at h
            cases hm : TaskSchema (mergeTask r p now) with
            | false => simp [hm] at h
            | true =>
                simp only [hm, if_true] at h
                simp only [Prod.mk.injEq, Except.ok.injEq] at h
                obtain ⟨ht, hdb⟩ := h
                subst ht
                refine ⟨hm, ?_⟩
                intro hall x hx
                rw [← hdb] at hx
                simp only [List.mem_map] at hx
                obtain ⟨r0, hr0, hx⟩ := hx
                by_cases hkey : (r0.id == id) = true
                · rw [← hx]
                  simp only [hkey, if_true]
                  exact TaskSchema_sqlTaskUpdate r0 r p now now (hall r0 hr0) hm
                · rw [← hx]
                  simp only [hkey]
                  simp only [Bool.not_eq_true] at hkey
                  simp only [hkey, Bool.false_eq_true, if_false]
                  exact hall r0 hr0
  · intro t h
    obtain ⟨_, _, hp, hc, hs⟩ := TaskSchema_parts t h
    exact ⟨hp, hc, statusOk_cases t.status hs⟩

/-- The task row produced by the concrete create of the C8 witness. -/
def taskC8w : TaskRow :=
  { id := "11111111-1111-1111-1111-111111111111", title := "t", description := none
    priority := 3, complexity := 4, status := "created", created_at := 5, updated_at := 5 }

/-- Witness for C8 (amended): a concrete successful create and update, with
the returned tasks validating. -/
theorem task_schema_invariant_witness :
    (SQLiteTaskRepository.create { tasks := [], codeLocations := [], implementations := [] }
        { title := "t", priority := 3, complexity := 4, status := "created" }
        "11111111-1111-1111-1111-111111111111" 5).1 =
      .ok taskC8w ∧ TaskSchema taskC8w = true ∧ taskC8w.updated_at = taskC8w.created_at := by
  have h := task_schema_invariant.1
    { tasks := [], codeLocations := [], implementations := [] }
    { title := "t", priority := 3, complexity := 4, status := "created" }
    "11111111-1111-1111-1111-111111111111" 5 taskC8w
    { tasks := [taskC8w], codeLocations := [], implementations := [] } (by rfl)
  exact ⟨by rfl, h.1, h.2.1⟩

/-- Concrete stored valid task for the C8 counterexample. -/
def taskC8 : TaskRow :=
  { id := "11111111-1111-1111-1111-111111111111", title := "t", description := none
    priority := 3, complexity := 3, status := "created", created_at := 5, updated_at := 5 }

/-- Concrete database for the C8 counterexample. -/
def dbC8 : DB := { tasks := [taskC8], codeLocations := [], implementations := [] }

/-- The task returned by the counterexample update: created_at 9 exceeds
updated_at 7. -/
def rowC8 : TaskRow :=
  { id := "11111111-1111-1111-1111-111111111111", title := "t", description := none
    priority := 3, complexity := 3, status := "created", created_at := 9, updated_at := 7 }

/-- Counterexample to C8 as stated: an update whose partial carries
created_at = 9, run at time 7, succeeds (no rejection) and returns a task
whose updated timestamp is strictly below its created timestamp. -/
theorem task_update_returns_updated_lt_created :
    (SQLiteTaskRepository.update dbC8 "11111111-1111-1111-1111-111111111111"
        { created_at := some 9 } 7).1 = .ok rowC8 ∧
      rowC8.updated_at < rowC8.created_at :=
  ⟨by rfl, by decide⟩

/-- C5: getTaskWithDetails fails with not-found exactly when no task row
with the id exists (over a store whose rows validate), and on an existing
id returns the task together with exactly the code locations and
implementations whose task_id matches, and no others. -/
theorem getTaskWithDetails_spec :
    ∀ db taskId,
      (∀ r ∈ db.tasks, TaskSchema r = true) →
      (∀ c ∈ db.codeLocations, CodeLocationSchema c = true) →
      (∀ i ∈ db.implementations, ImplementationSchema i = true) →
      (TaskService.getTaskWithDetails db taskId = .error (Err.notFound "Task" taskId) ↔
        db.tasks.find? (fun r => r.id == taskId) = none) ∧
      (∀ t, db.tasks.find? (fun r => r.id == taskId) = some t →
        TaskService.getTaskWithDetails db taskId =
          .ok (t, db.codeLocations.filter (fun c => c.task_id == taskId),
                  db.implementations.filter (fun i => i.task_id == taskId))) := by
  intro db taskId htasks hcls himpls
  have hcl : SQLiteCodeLocationRepository.findByTaskId db taskId =
      .ok (db.codeLocations.filter (fun c => c.task_id == taskId)) := by
    unfold SQLiteCodeLocationRepository.findByTaskId
    have hall : (db.codeLocations.filter (fun c => c.task_id == taskId)).all
        CodeLocationSchema = true :=
      List.all_eq_true.mpr (fun c hc => hcls c (List.mem_filter.mp hc).1)
    simp [hall]
  have himp : SQLiteImplementationRepository.findByTaskId db taskId =
      .ok (db.implementations.filter (fun i => i.task_id == taskId)) := by
    unfold SQLiteImplementationRepository.findByTaskId
    have hall : (db.implementations.filter (fun i => i.task_id == taskId)).all
        ImplementationSchema = true :=
      List.all_eq_true.mpr (fun i hi => himpls i (List.mem_filter.mp hi).1)
    simp [hall]
  constructor
  · constructor
    · intro h
      cases hf : db.tasks.find? (fun r => r.id == taskId) with
      | none => rfl
      | some t =>
          have hv := htasks t (List.mem_of_find?_eq_some hf)
          unfold TaskService.getTaskWithDetails SQLiteTaskRepository.findById at h
          rw [hf] at h
          simp only [hv, if_true] at h
          rw [hcl, himp] at h
          simp at h
    · intro hf
      unfold TaskService.getTaskWithDetails SQLiteTaskRepository.findById
      rw [hf]
  · intro t hf
    have hv := htasks t (List.mem_of_find?_eq_some hf)
    unfold TaskService.getTaskWithDetails SQLiteTaskRepository.findById
    rw [hf]
    simp only [hv, if_true]
    rw [hcl, himp]

/-- Concrete valid task for the C5 witness. -/
def taskC5 : TaskRow :=
  { id := "11111111-1111-1111-1111-111111111111", title := "t", description := none
    priority := 2, complexity := 2, status := "in_progress", created_at := 1, updated_at := 2 }

/-- A valid code location owned by a different task, which must not be
returned. -/
def locOtherC5 : CodeLocationRow :=
  { id := "44444444-4444-4444-4444-444444444444"
    task_id := "33333333-3333-3333-3333-333333333333"
    file_path := "src/z.ts", start_line := 2, end_line := none
    git_branch := none, git_commit := none, created_at := 0 }

/-- Concrete database for the C5 witness. -/
def dbC5 : DB :=
  { tasks := [taskC5], codeLocations := [locC10, locOtherC5], implementations := [implC10] }

/-- Witness for C5: the fan-out read returns the task, only its own code
location (not the other task's), and its implementation. -/
theorem getTaskWithDetails_spec_witness :
    TaskService.getTaskWithDetails dbC5 "11111111-1111-1111-1111-111111111111" =
      .ok (taskC5, [locC10], [implC10]) := by
  exact (getTaskWithDetails_spec dbC5 "11111111-1111-1111-1111-111111111111"
    (by decide) (by decide) (by decide)).2 taskC5 (by rfl)

/-- The element returned by find? satisfies the predicate. -/
theorem find?_holds {α : Type} (p : α → Bool) (l : List α) (a : α)
    (h : l.find? p = some a) : p a = true := by
  induction l with
  | nil => simp [List.find?] at h
  | cons x l ih =>
      simp only [List.find?] at h
      cases hx : p x with
      | true => rw [hx] at h; simp at h; subst h; exact hx
      | false => rw [hx] at h; exact ih h

/-- C2 (amended): for an existing task and a location whose line numbers
satisfy the schema (start line >= 1, end line when given >= 1, fresh uuid),
addCodeLocation succeeds exactly when the checked-out branch is
`task/<taskId>`; when the branch differs it fails with the GitError
"Must be on task branch ..." and the whole state, in particular the
code_locations table, is unchanged. -/
theorem addCodeLocation_branch_gate :
    ∀ (s : Svc) taskId t filePath startLine endLine newId now,
      SQLiteTaskRepository.findById s.db taskId = .ok (some t) →
      isUuid newId = true →
      s.db.codeLocations.any (fun c => c.id == newId) = false →
      (1 : Int) ≤ startLine →
      (∀ e, endLine = some e → (1 : Int) ≤ e) →
      ((∃ loc s', TaskService.addCodeLocation s taskId filePath startLine endLine newId now =
          (.ok loc, s')) ↔ s.git.current = "task/" ++ taskId) ∧
      (s.git.current ≠ "task/" ++ taskId →
        TaskService.addCodeLocation s taskId filePath startLine endLine newId now =
          (.error (Err.git ("Must be on task branch " ++ ("task/" ++ taskId) ++
            " to add code location")), s)) := by
  intro s taskId t filePath startLine endLine newId now hfind huuid hfresh hsl hel
  obtain ⟨hf, hv⟩ := findById_ok_some s.db taskId t hfind
  have hpt : (t.id == taskId) = true := find?_holds (fun r => r.id == taskId) s.db.tasks t hf
  have hid : t.id = taskId := eq_of_beq hpt
  have htid : isUuid taskId = true := by rw [← hid]; exact (TaskSchema_parts t hv).1
  have hschema : CodeLocationSchema
      { id := newId, task_id := taskId, file_path := filePath, start_line := startLine
        end_line := endLine, git_branch := some ("task/" ++ taskId)
        git_commit := some s.git.headCommit, created_at := now } = true := by
    simp only [CodeLocationSchema, Bool.and_eq_true, decide_eq_true_eq]
    refine ⟨⟨⟨huuid, htid⟩, hsl⟩, ?_⟩
    cases endLine with
    | none => rfl
    | some e => simpa using hel e rfl
  have hcreate : SQLiteCodeLocationRepository.create s.db
      { task_id := taskId, file_path := filePath, start_line := startLine
        end_line := endLine, git_branch := some ("task/" ++ taskId)
        git_commit := some s.git.headCommit } newId now =
      (.ok { id := newId, task_id := taskId, file_path := filePath, start_line := startLine
             end_line := endLine, git_branch := some ("task/" ++ taskId)
             git_commit := some s.git.headCommit, created_at := now },
       { s.db with codeLocations := s.db.codeLocations ++
           [{ id := newId, task_id := taskId, file_path := filePath, start_line := startLine
              end_line := endLine, git_branch := some ("task/" ++ taskId)
              git_commit := some s.git.headCommit, created_at := now }] }) := by
    unfold SQLiteCodeLocationRepository.create
    dsimp only
    rw [hschema, hfresh]
    simp
  constructor
  · constructor
    · rintro ⟨loc, s', hres⟩
      unfold TaskService.addCodeLocation at hres
      rw [hfind] at hres
      dsimp only at hres
      by_cases hcur : (s.git.current == "task/" ++ taskId) = true
      · exact eq_of_beq hcur
      · rw [Bool.not_eq_true] at hcur
        rw [hcur] at hres
        simp at hres
    · intro hcur
      have hcurb : (s.git.current == "task/" ++ taskId) = true := by
        rw [hcur]; exact beq_self_eq_true _
      have hres : TaskService.addCodeLocation s taskId filePath startLine endLine newId now =
          (.ok { id := newId, task_id := taskId, file_path := filePath, start_line := startLine
                 end_line := endLine, git_branch := some ("task/" ++ taskId)
                 git_commit := some s.git.headCommit, created_at := now },
           { s with db := { s.db with codeLocations := s.db.codeLocations ++
               [{ id := newId, task_id := taskId, file_path := filePath, start_line := startLine
                  end_line := endLine, git_branch := some ("task/" ++ taskId)
                  git_commit := some s.git.headCommit, created_at := now }] } }) := by
        unfold TaskService.addCodeLocation
        rw [hfind]
        dsimp only
        rw [hcurb, if_pos rfl, hcreate]
      exact ⟨_, _, hres⟩
  · intro hcur
    have hcurb : (s.git.current == "task/" ++ taskId) = false := by
      cases hq : (s.git.current == "task/" ++ taskId) with
      | false => rfl
      | true => exact absurd (eq_of_beq hq) hcur
    unfold TaskService.addCodeLocation
    rw [hfind]
    dsimp only
    rw [hcurb, if_neg (by simp)]

/-- Concrete valid task for the C2 counterexample and witness. -/
def taskC2 : TaskRow :=
  { id := "11111111-1111-1111-1111-111111111111", title := "t", description := none
    priority := 3, complexity := 3, status := "created", created_at := 0, updated_at := 0 }

/-- Git state checked out on the task branch. -/
def gitC2 : GitState :=
  { current := "task/11111111-1111-1111-1111-111111111111"
    branches := ["master", "task/11111111-1111-1111-1111-111111111111"]
    headCommit := "c0", midMerge := false, midRebase := false, clean := true
    stashed := 0, pullOk := true
    mergeConflict := fun _ _ => false, rebaseConflict := fun _ _ => false
    unmerged := fun _ => false }

/-- Service state on the task branch. -/
def sC2 : Svc :=
  { db := { tasks := [taskC2], codeLocations := [], implementations := [] }
    git := gitC2, mainBranch := some "master" }

/-- Counterexample to C2 as stated: with the current branch equal to
`task/<taskId>`, addCodeLocation with start line 0 still fails (schema
validation, surfaced as a DatabaseError), so success is not equivalent to
being on the task branch. -/
theorem addCodeLocation_on_branch_can_fail :
    sC2.git.current = "task/" ++ "11111111-1111-1111-1111-111111111111" ∧
    TaskService.addCodeLocation sC2 "11111111-1111-1111-1111-111111111111"
        "src/x.ts" 0 none "22222222-2222-2222-2222-222222222222" 5 =
      (.error (Err.database "Failed to add code location"), sC2) :=
  ⟨by rfl, by rfl⟩

/-- Service state whose working copy is checked out on master, away from
the task branch. -/
def sC2off : Svc :=
  { db := { tasks := [taskC2], codeLocations := [], implementations := [] }
    git := { gitC2 with current := "master" }, mainBranch := some "master" }

/-- Witness for C2 (amended): on the concrete state checked out on master,
the success-iff-on-branch equivalence and the failure description hold for
a valid location. -/
theorem addCodeLocation_branch_gate_witness :
    ((∃ loc s', TaskService.addCodeLocation sC2off "11111111-1111-1111-1111-111111111111"
        "src/x.ts" 1 none "22222222-2222-2222-2222-222222222222" 5 = (.ok loc, s')) ↔
      sC2off.git.current = "task/" ++ "11111111-1111-1111-1111-111111111111") ∧
    (sC2off.git.current ≠ "task/" ++ "11111111-1111-1111-1111-111111111111" →
      TaskService.addCodeLocation sC2off "11111111-1111-1111-1111-111111111111"
          "src/x.ts" 1 none "22222222-2222-2222-2222-222222222222" 5 =
        (.error (Err.git ("Must be on task branch " ++
          ("task/" ++ "11111111-1111-1111-1111-111111111111") ++
          " to add code location")), sC2off)) :=
  addCodeLocation_branch_gate sC2off "11111111-1111-1111-1111-111111111111" taskC2
    "src/x.ts" 1 none "22222222-2222-2222-2222-222222222222" 5
    (by rfl) (by decide) (by decide) (by decide) (fun e h => by cases h)

/-- Writing a valid status through the merge keeps the merged task valid. -/
theorem TaskSchema_mergeStatus (t : TaskRow) (st : String) (now : Int)
    (h : TaskSchema t = true) (hst : statusOk st = true) :
    TaskSchema (mergeTask t { status := some st } now) = true := by
  obtain ⟨h1, h2, h3, h4, _⟩ := TaskSchema_parts t h
  simp only [TaskSchema, mergeTask, Bool.and_eq_true, decide_eq_true_eq]
  dsimp only [Option.getD]
  exact ⟨⟨⟨⟨h1, h2⟩, h3⟩, h4⟩, hst⟩

/-- The status-only repository update on a found valid row: explicit result
and explicit written table. -/
theorem taskUpdate_status_eq (db : DB) (taskId st : String) (now : Int) (t : TaskRow)
    (hfind : SQLiteTaskRepository.findById db taskId = .ok (some t))
    (hm : TaskSchema (mergeTask t { status := some st } now) = true) :
    SQLiteTaskRepository.update db taskId { status := some st } now =
      (.ok (mergeTask t { status := some st } now),
       { db with tasks := db.tasks.map (fun r => if r.id == taskId then sqlTaskUpdate r { status := some st } now else r) }) := by
  unfold SQLiteTaskRepository.update
  rw [hfind]
  simp [hm]

/-- C4 (amended): a second completeTask on a task whose branch is gone does
not fail: the task is found, its status is written to completed again, and
because no branch `task/<taskId>` exists the call returns successfully
(the already-completed log path), rather than raising not-found or an
"already completed" error. -/
theorem completeTask_no_branch_succeeds :
    ∀ (s : Svc) taskId now t,
      SQLiteTaskRepository.findById s.db taskId = .ok (some t) →
      s.git.branches.contains ("task/" ++ taskId) = false →
      ∃ s', TaskService.completeTask s taskId now = (.ok (), s') ∧
        s'.db.tasks.find? (fun r => r.id == taskId) =
          some (sqlTaskUpdate t { status := some "completed" } now) ∧
        (sqlTaskUpdate t { status := some "completed" } now).status = "completed" := by
  intro s taskId now t hfind hnob
  obtain ⟨hf, hv⟩ := findById_ok_some s.db taskId t hfind
  have hm : TaskSchema (mergeTask t { status := some "completed" } now) = true :=
    TaskSchema_mergeStatus t "completed" now hv (by decide)
  have hupd := taskUpdate_status_eq s.db taskId "completed" now t hfind hm
  have hlook : (s.db.tasks.map
      (fun r => if r.id == taskId then sqlTaskUpdate r { status := some "completed" } now else r)).find?
        (fun r => r.id == taskId) =
      some (sqlTaskUpdate t { status := some "completed" } now) := by
    rw [find_map_keyed s.db.tasks (fun r => r.id) taskId
      (fun r => sqlTaskUpdate r { status := some "completed" } now) (fun a => rfl), hf]
    rfl
  cases hmb : s.mainBranch with
  | some m =>
      have hres : TaskService.completeTask s taskId now =
          (.ok (), { s with db := { s.db with tasks := s.db.tasks.map (fun r => if r.id == taskId then sqlTaskUpdate r { status := some "completed" } now else r) } }) := by
        unfold TaskService.completeTask TaskService.getMainBranch
        rw [hfind, hmb]
        dsimp only
        rw [hupd]
        dsimp only
        rw [hnob, if_neg (by simp)]
        rw [hmb]
      exact ⟨_, hres, hlook, rfl⟩
  | none =>
      have hres : TaskService.completeTask s taskId now =
          (.ok (), { db := { s.db with tasks := s.db.tasks.map (fun r => if r.id == taskId then sqlTaskUpdate r { status := some "completed" } now else r) }, git := s.git, mainBranch := some s.git.current }) := by
        unfold TaskService.completeTask TaskService.getMainBranch
        rw [hfind, hmb]
        dsimp only
        rw [hupd]
        dsimp only
        rw [hnob, if_neg (by simp)]
      exact ⟨_, hres, hlook, rfl⟩

/-- Fresh-service git state for the C4 counterexample: on master, with the
task branch present and no conflicts anywhere. -/
def gitC4 : GitState :=
  { current := "master"
    branches := ["master", "task/11111111-1111-1111-1111-111111111111"]
    headCommit := "c0", midMerge := false, midRebase := false, clean := true
    stashed := 0, pullOk := true
    mergeConflict := fun _ _ => false, rebaseConflict := fun _ _ => false
    unmerged := fun _ => false }

/-- Service state before the first completion. -/
def sC4 : Svc :=
  { db := { tasks := [taskC2], codeLocations := [], implementations := [] }
    git := gitC4, mainBranch := none }

/-- Counterexample to C4 as stated: after a first successful completeTask
(which merges and deletes the branch), a second completeTask on the same
task also returns successfully - it does not fail with not-found nor with
an "already completed" signal. -/
theorem completeTask_second_call_silently_succeeds :
    (TaskService.completeTask sC4 "11111111-1111-1111-1111-111111111111" 1).1 = .ok () ∧
    (TaskService.completeTask
        (TaskService.completeTask sC4 "11111111-1111-1111-1111-111111111111" 1).2
        "11111111-1111-1111-1111-111111111111" 2).1 = .ok () :=
  ⟨by rfl, by rfl⟩

/-- Completed task whose branch is already gone, for the C4 witness. -/
def taskC4done : TaskRow :=
  { id := "11111111-1111-1111-1111-111111111111", title := "t", description := none
    priority := 3, complexity := 3, status := "completed", created_at := 0, updated_at := 1 }

/-- Service state after a completed task's branch has been deleted. -/
def sC4w : Svc :=
  { db := { tasks := [taskC4done], codeLocations := [], implementations := [] }
    git := { gitC4 with branches := ["master"] }, mainBranch := some "master" }

/-- Witness for C4 (amended): the concrete second call returns ok and the
persisted status is completed. -/
theorem completeTask_no_branch_succeeds_witness :
    ∃ s', TaskService.completeTask sC4w "11111111-1111-1111-1111-111111111111" 2 =
        (.ok (), s') ∧
      s'.db.tasks.find? (fun r => r.id == "11111111-1111-1111-1111-111111111111") =
        some (sqlTaskUpdate taskC4done { status := some "completed" } 2) ∧
      (sqlTaskUpdate taskC4done { status := some "completed" } 2).status = "completed" :=
  completeTask_no_branch_succeeds sC4w "11111111-1111-1111-1111-111111111111" 2 taskC4done
    (by rfl) (by rfl)

/-- Looking up the id after the status-only UPDATE wrote the table. -/
theorem find_after_status_write (l : List TaskRow) (taskId st : String) (now : Int) (u : TaskRow)
    (hf : l.find? (fun r => r.id == taskId) = some u) :
    (l.map (fun r => if r.id == taskId then sqlTaskUpdate r { status := some st } now else r)).find?
        (fun r => r.id == taskId) =
      some (sqlTaskUpdate u { status := some st } now) := by
  rw [find_map_keyed l (fun r => r.id) taskId
    (fun r => sqlTaskUpdate r { status := some st } now) (fun a => rfl), hf]
  rfl

/-- C1: whenever completeTask propagates a GitError (the merge/checkout/
delete failure path), the persisted status of the task after the call
equals its status before the call: the catch block's compensating write
rounds the status back before the branch error is raised. -/
theorem completeTask_git_failure_restores_status :
    ∀ (s : Svc) taskId now t m s',
      SQLiteTaskRepository.findById s.db taskId = .ok (some t) →
      TaskService.completeTask s taskId now = (.error (Err.git m), s') →
      ∃ t', s'.db.tasks.find? (fun r => r.id == taskId) = some t' ∧ t'.status = t.status := by
  intro s taskId now t m s' hfind hrun
  obtain ⟨hf, hv⟩ := findById_ok_some s.db taskId t hfind
  have hstatus_t : statusOk t.status = true := (TaskSchema_parts t hv).2.2.2.2
  have hm1 : TaskSchema (mergeTask t { status := some "completed" } now) = true :=
    TaskSchema_mergeStatus t "completed" now hv (by decide)
  have hupd := taskUpdate_status_eq s.db taskId "completed" now t hfind hm1
  set db1 : DB := { tasks := s.db.tasks.map (fun r => if r.id == taskId then sqlTaskUpdate r { status := some "completed" } now else r), codeLocations := s.db.codeLocations, implementations := s.db.implementations } with hdb1
  have hlook1 : db1.tasks.find? (fun r => r.id == taskId) =
      some (sqlTaskUpdate t { status := some "completed" } now) := by
    rw [hdb1]
    exact find_after_status_write s.db.tasks taskId "completed" now t hf
  have hu : TaskSchema (sqlTaskUpdate t { status := some "completed" } now) = true :=
    TaskSchema_sqlTaskUpdate t t { status := some "completed" } now now hv hm1
  have hfind1 : SQLiteTaskRepository.findById db1 taskId =
      .ok (some (sqlTaskUpdate t { status := some "completed" } now)) := by
    unfold SQLiteTaskRepository.findById
    rw [hlook1]
    simp [hu]
  have hm2 : TaskSchema (mergeTask (sqlTaskUpdate t { status := some "completed" } now)
      { status := some t.status } now) = true :=
    TaskSchema_mergeStatus _ t.status now hu hstatus_t
  have hcatchEq : ∀ (g : GitState) (mb : Option String),
      TaskService.completeTaskCatch { db := db1, git := g, mainBranch := mb } t taskId now =
        (.error (Err.git "Failed to complete task"),
         { db := { db1 with tasks := db1.tasks.map (fun r => if r.id == taskId then sqlTaskUpdate r { status := some t.status } now else r) },
           git := (gitMergeAbort g).1, mainBranch := mb }) := by
    intro g mb
    unfold TaskService.completeTaskCatch
    rw [taskUpdate_status_eq db1 taskId t.status now _ hfind1 hm2]
  have hlook2 : (db1.tasks.map (fun r => if r.id == taskId then sqlTaskUpdate r { status := some t.status } now else r)).find?
      (fun r => r.id == taskId) =
      some (sqlTaskUpdate (sqlTaskUpdate t { status := some "completed" } now)
        { status := some t.status } now) :=
    find_after_status_write db1.tasks taskId t.status now _ hlook1
  unfold TaskService.completeTask TaskService.getMainBranch at hrun
  rw [hfind] at hrun
  dsimp only at hrun
  cases hmb : s.mainBranch with
  | some mb0 =>
      rw [hmb] at hrun
      dsimp only at hrun
      rw [hupd] at hrun
      dsimp only at hrun
      cases hbr : s.git.branches.contains ("task/" ++ taskId) with
      | false =>
          rw [hbr, if_neg (by simp)] at hrun
          simp at hrun
      | true =>
          rw [hbr, if_pos rfl] at hrun
          cases h1 : (if (s.git.current == mb0) = true then (s.git, none)
              else gitCheckout s.git mb0) with
          | mk g1 r1 =>
              rw [h1] at hrun
              cases r1 with
              | some msg1 =>
                  dsimp only at hrun
                  rw [hcatchEq] at hrun
                  simp only [Prod.mk.injEq, Except.error.injEq, Err.git.injEq] at hrun
                  obtain ⟨hmsg, hs⟩ := hrun
                  refine ⟨sqlTaskUpdate (sqlTaskUpdate t { status := some "completed" } now) { status := some t.status } now, ?_, rfl⟩
                  rw [← hs]
                  exact hlook2
              | none =>
                  dsimp only at hrun
                  cases h2 : gitMerge g1 ("task/" ++ taskId) with
                  | mk g2 r2 =>
                      rw [h2] at hrun
                      cases r2 with
                      | some msg2 =>
                          dsimp only at hrun
                          rw [hcatchEq] at hrun
                          simp only [Prod.mk.injEq, Except.error.injEq, Err.git.injEq] at hrun
                          obtain ⟨hmsg, hs⟩ := hrun
                          refine ⟨sqlTaskUpdate (sqlTaskUpdate t { status := some "completed" } now) { status := some t.status } now, ?_, rfl⟩
                          rw [← hs]
                          exact hlook2
                      | none =>
                          dsimp only at hrun
                          cases h3 : gitDeleteBranch g2 ("task/" ++ taskId) false with
                          | mk g3 r3 =>
                              rw [h3] at hrun
                              cases r3 with
                              | some msg3 =>
                                  dsimp only at hrun
                                  rw [hcatchEq] at hrun
                                  simp only [Prod.mk.injEq, Except.error.injEq,
                                    Err.git.injEq] at hrun
                                  obtain ⟨hmsg, hs⟩ := hrun
                                  refine ⟨sqlTaskUpdate (sqlTaskUpdate t { status := some "completed" } now) { status := some t.status } now, ?_, rfl⟩
                                  rw [← hs]
                                  exact hlook2
                              | none =>
                                  dsimp only at hrun
                                  simp at hrun
  | none =>
      rw [hmb] at hrun
      dsimp only at hrun
      rw [hupd] at hrun
      dsimp only at hrun
      cases hbr : s.git.branches.contains ("task/" ++ taskId) with
      | false =>
          rw [hbr, if_neg (by simp)] at hrun
          simp at hrun
      | true =>
          rw [hbr, if_pos rfl] at hrun
          cases h1 : (if (s.git.current == s.git.current) = true then (s.git, none)
              else gitCheckout s.git s.git.current) with
          | mk g1 r1 =>
              rw [h1] at hrun
              cases r1 with
              | some msg1 =>
                  dsimp only at hrun
                  rw [hcatchEq] at hrun
                  simp only [Prod.mk.injEq, Except.error.injEq, Err.git.injEq] at hrun
                  obtain ⟨hmsg, hs⟩ := hrun
                  refine ⟨sqlTaskUpdate (sqlTaskUpdate t { status := some "completed" } now) { status := some t.status } now, ?_, rfl⟩
                  rw [← hs]
                  exact hlook2
              | none =>
                  dsimp only at hrun
                  cases h2 : gitMerge g1 ("task/" ++ taskId) with
                  | mk g2 r2 =>
                      rw [h2] at hrun
                      cases r2 with
                      | some msg2 =>
                          dsimp only at hrun
                          rw [hcatchEq] at hrun
                          simp only [Prod.mk.injEq, Except.error.injEq, Err.git.injEq] at hrun
                          obtain ⟨hmsg, hs⟩ := hrun
                          refine ⟨sqlTaskUpdate (sqlTaskUpdate t { status := some "completed" } now) { status := some t.status } now, ?_, rfl⟩
                          rw [← hs]
                          exact hlook2
                      | none =>
                          dsimp only at hrun
                          cases h3 : gitDeleteBranch g2 ("task/" ++ taskId) false with
                          | mk g3 r3 =>
                              rw [h3] at hrun
                              cases r3 with
                              | some msg3 =>
                                  dsimp only at hrun
                                  rw [hcatchEq] at hrun
                                  simp only [Prod.mk.injEq, Except.error.injEq,
                                    Err.git.injEq] at hrun
                                  obtain ⟨hmsg, hs⟩ := hrun
                                  refine ⟨sqlTaskUpdate (sqlTaskUpdate t { status := some "completed" } now) { status := some t.status } now, ?_, rfl⟩
                                  rw [← hs]
                                  exact hlook2
                              | none =>
                                  dsimp only at hrun
                                  simp at hrun

/-- Concrete in-progress task for the C1 witness. -/
def taskC1 : TaskRow :=
  { id := "11111111-1111-1111-1111-111111111111", title := "t", description := none
    priority := 3, complexity := 3, status := "in_progress", created_at := 0, updated_at := 0 }

/-- Git state where merging the task branch into master conflicts. -/
def gitC1 : GitState :=
  { current := "master"
    branches := ["master", "task/11111111-1111-1111-1111-111111111111"]
    headCommit := "c0", midMerge := false, midRebase := false, clean := true
    stashed := 0, pullOk := true
    mergeConflict := fun b _ => b == "task/11111111-1111-1111-1111-111111111111"
    rebaseConflict := fun _ _ => false
    unmerged := fun _ => false }

/-- Service state for the C1 witness. -/
def sC1 : Svc :=
  { db := { tasks := [taskC1], codeLocations := [], implementations := [] }
    git := gitC1, mainBranch := none }

/-- Witness for C1: on the concrete conflicting merge, completeTask raises
the GitError and the persisted status is back to in_progress. -/
theorem completeTask_git_failure_restores_status_witness :
    ∃ t', ((TaskService.completeTask sC1 "11111111-1111-1111-1111-111111111111" 1).2).db.tasks.find?
        (fun r => r.id == "11111111-1111-1111-1111-111111111111") = some t' ∧
      t'.status = taskC1.status :=
  completeTask_git_failure_restores_status sC1 "11111111-1111-1111-1111-111111111111" 1 taskC1
    "Failed to complete task"
    (TaskService.completeTask sC1 "11111111-1111-1111-1111-111111111111" 1).2
    (by rfl) (by rfl)

/-- C3: when branch creation fails in createTask (modelled by the branch
`task/<id>` already existing) after the Task row was persisted, the
orchestrator propagates a GitError, attempts the best-effort cleanup
(checkout main, delete the branch - here both succeed, so the branch is
gone), and leaves the Task row in place: the tasks table still holds the
row created in step 1 and the code_locations table is untouched. -/
theorem createTask_branch_failure_keeps_row :
    ∀ (s : Svc) (options : CreateTaskOptions) newTaskId newLocId now,
      isUuid newTaskId = true →
      options.title.length ≥ 1 →
      (1 ≤ options.priority ∧ options.priority ≤ 5) →
      (1 ≤ options.complexity ∧ options.complexity ≤ 5) →
      s.db.tasks.any (fun r => r.id == newTaskId) = false →
      s.git.branches.contains ("task/" ++ newTaskId) = true →
      s.git.branches.contains (s.mainBranch.getD s.git.current) = true →
      (("task/" ++ newTaskId) == s.mainBranch.getD s.git.current) = false →
      s.git.unmerged ("task/" ++ newTaskId) = false →
      ∃ g',
        TaskService.createTask s options newTaskId newLocId now =
          (.error (Err.git ("Failed to create branch " ++ ("task/" ++ newTaskId))),
           { db := { s.db with tasks := s.db.tasks ++ [{ id := newTaskId, title := options.title, description := options.description, priority := options.priority, complexity := options.complexity, status := "created", created_at := now, updated_at := now }] },
             git := g', mainBranch := some (s.mainBranch.getD s.git.current) }) ∧
        g'.branches = s.git.branches.erase ("task/" ++ newTaskId) := by
  intro s options newTaskId newLocId now huuid htitle hpr hcx hfresh hbr hmainmem hne hunm
  have hschema : TaskSchema { id := newTaskId, title := options.title, description := options.description, priority := options.priority, complexity := options.complexity, status := "created", created_at := now, updated_at := now } = true := by
    simp only [TaskSchema, Bool.and_eq_true, decide_eq_true_eq]
    exact ⟨⟨⟨⟨huuid, htitle⟩, hpr⟩, hcx⟩, by rfl⟩
  have hcreate : SQLiteTaskRepository.create s.db { title := options.title, description := options.description, priority := options.priority, complexity := options.complexity, status := "created" } newTaskId now =
      (.ok { id := newTaskId, title := options.title, description := options.description, priority := options.priority, complexity := options.complexity, status := "created", created_at := now, updated_at := now },
       { s.db with tasks := s.db.tasks ++ [{ id := newTaskId, title := options.title, description := options.description, priority := options.priority, complexity := options.complexity, status := "created", created_at := now, updated_at := now }] }) := by
    unfold SQLiteTaskRepository.create
    dsimp only
    rw [hschema, if_pos rfl, hfresh, if_neg (by simp)]
  unfold TaskService.createTask TaskService.getMainBranch
  rw [hcreate]
  dsimp only
  cases hmb : s.mainBranch with
  | some m0 =>
      rw [hmb] at hmainmem hne
      simp only [Option.getD_some] at hmainmem hne ⊢
      unfold gitCheckoutBranch gitCheckout gitDeleteBranch
      rw [hbr, if_pos rfl]
      dsimp only
      rw [hmainmem, if_pos rfl]
      dsimp only
      have hnn : ((none : Option String) == none) = true := rfl
      rw [hnn, if_pos rfl]
      rw [hbr, if_pos rfl, hne, if_neg (by simp), hunm, if_neg (by simp)]
      dsimp only
      exact ⟨_, rfl, rfl⟩
  | none =>
      rw [hmb] at hmainmem hne
      simp only [Option.getD_none] at hmainmem hne ⊢
      unfold gitCheckoutBranch gitCheckout gitDeleteBranch
      rw [hbr, if_pos rfl]
      dsimp only
      rw [hmainmem, if_pos rfl]
      dsimp only
      have hnn : ((none : Option String) == none) = true := rfl
      rw [hnn, if_pos rfl]
      rw [hbr, if_pos rfl, hne, if_neg (by simp), hunm, if_neg (by simp)]
      dsimp only
      exact ⟨_, rfl, rfl⟩

/-- Git state where the branch for the about-to-be-created task already
exists, so branch creation fails. -/
def gitC3 : GitState :=
  { current := "master"
    branches := ["master", "task/55555555-5555-5555-5555-555555555555"]
    headCommit := "c0", midMerge := false, midRebase := false, clean := true
    stashed := 0, pullOk := true
    mergeConflict := fun _ _ => false, rebaseConflict := fun _ _ => false
    unmerged := fun _ => false }

/-- Service state for the C3 witness. -/
def sC3 : Svc :=
  { db := { tasks := [], codeLocations := [], implementations := [] }
    git := gitC3, mainBranch := none }

/-- Witness for C3: concrete createTask hitting the existing branch - the
GitError propagates, the Task row stays persisted, and the cleanup removed
the branch. -/
theorem createTask_branch_failure_keeps_row_witness :
    ∃ g', TaskService.createTask sC3 { title := "t", priority := 3, complexity := 3 }
        "55555555-5555-5555-5555-555555555555" "66666666-6666-6666-6666-666666666666" 7 =
      (.error (Err.git ("Failed to create branch " ++
          ("task/" ++ "55555555-5555-5555-5555-555555555555"))),
       { db := { sC3.db with tasks := sC3.db.tasks ++ [{ id := "55555555-5555-5555-5555-555555555555", title := "t", description := none, priority := 3, complexity := 3, status := "created", created_at := 7, updated_at := 7 }] },
         git := g', mainBranch := some (sC3.mainBranch.getD sC3.git.current) }) ∧
      g'.branches = sC3.git.branches.erase ("task/" ++ "55555555-5555-5555-5555-555555555555") :=
  createTask_branch_failure_keeps_row sC3 { title := "t", priority := 3, complexity := 3 }
    "55555555-5555-5555-5555-555555555555" "66666666-6666-6666-6666-666666666666" 7
    (by decide) (by decide) (by decide) (by decide) (by rfl) (by rfl) (by rfl) (by rfl) (by rfl)

/-- Frame facts of gitCheckout: branches and the in-progress flags are
untouched; on success the requested branch is checked out. -/
theorem gitCheckout_cases (g : GitState) (b : String) (g' : GitState) (r : Option String)
    (h : gitCheckout g b = (g', r)) :
    g'.branches = g.branches ∧ g'.midMerge = g.midMerge ∧ g'.midRebase = g.midRebase ∧
      (r = none → g'.current = b) := by
  unfold gitCheckout at h
  split at h
  · simp only [Prod.mk.injEq] at h
    obtain ⟨h1, h2⟩ := h
    subst h1
    exact ⟨rfl, rfl, rfl, fun _ => rfl⟩
  · simp only [Prod.mk.injEq] at h
    obtain ⟨h1, h2⟩ := h
    subst h1
    exact ⟨rfl, rfl, rfl, fun hr => by rw [← h2] at hr; cases hr⟩

/-- gitPull never changes the state. -/
theorem gitPull_cases (g g' : GitState) (r : Option String) (h : gitPull g = (g', r)) :
    g' = g := by
  unfold gitPull at h
  split at h <;> (simp only [Prod.mk.injEq] at h; exact h.1.symm)

/-- Frame facts of gitMerge: current, branches and the rebase flag are
untouched. -/
theorem gitMerge_cases (g : GitState) (b : String) (g' : GitState) (r : Option String)
    (h : gitMerge g b = (g', r)) :
    g'.current = g.current ∧ g'.branches = g.branches ∧ g'.midRebase = g.midRebase := by
  unfold gitMerge at h
  split at h
  · split at h
    · simp only [Prod.mk.injEq] at h
      obtain ⟨h1, _⟩ := h
      subst h1
      exact ⟨rfl, rfl, rfl⟩
    · split at h
      · simp only [Prod.mk.injEq] at h
        obtain ⟨h1, _⟩ := h
        subst h1
        exact ⟨rfl, rfl, rfl⟩
      · simp only [Prod.mk.injEq] at h
        obtain ⟨h1, _⟩ := h
        subst h1
        exact ⟨rfl, rfl, rfl⟩
  · simp only [Prod.mk.injEq] at h
    obtain ⟨h1, _⟩ := h
    subst h1
    exact ⟨rfl, rfl, rfl⟩

/-- Frame facts of gitRebase: current, branches and the merge flag are
untouched. -/
theorem gitRebase_cases (g : GitState) (t : String) (g' : GitState) (r : Option String)
    (h : gitRebase g t = (g', r)) :
    g'.current = g.current ∧ g'.branches = g.branches ∧ g'.midMerge = g.midMerge := by
  unfold gitRebase at h
  split at h
  · split at h
    · simp only [Prod.mk.injEq] at h
      obtain ⟨h1, _⟩ := h
      subst h1
      exact ⟨rfl, rfl, rfl⟩
    · simp only [Prod.mk.injEq] at h
      obtain ⟨h1, _⟩ := h
      subst h1
      exact ⟨rfl, rfl, rfl⟩
  · simp only [Prod.mk.injEq] at h
    obtain ⟨h1, _⟩ := h
    subst h1
    exact ⟨rfl, rfl, rfl⟩

/-- Frame facts of gitStashPop: current, branches and both flags are
untouched. -/
theorem gitStashPop_cases (g g' : GitState) (r : Option String) (h : gitStashPop g = (g', r)) :
    g'.current = g.current ∧ g'.branches = g.branches ∧ g'.midMerge = g.midMerge ∧
      g'.midRebase = g.midRebase := by
  unfold gitStashPop at h
  split at h
  · simp only [Prod.mk.injEq] at h
    obtain ⟨h1, _⟩ := h
    subst h1
    exact ⟨rfl, rfl, rfl, rfl⟩
  · simp only [Prod.mk.injEq] at h
    obtain ⟨h1, _⟩ := h
    subst h1
    exact ⟨rfl, rfl, rfl, rfl⟩

/-- Frame facts of gitDeleteBranch: the flags are untouched; on success the
current branch is unchanged and the branch is erased. -/
theorem gitDeleteBranch_cases (g : GitState) (b : String) (f : Bool) (g' : GitState)
    (r : Option String) (h : gitDeleteBranch g b f = (g', r)) :
    g'.midMerge = g.midMerge ∧ g'.midRebase = g.midRebase ∧
      (r = none → g'.current = g.current ∧ g'.branches = g.branches.erase b) := by
  unfold gitDeleteBranch at h
  split at h
  · split at h
    · simp only [Prod.mk.injEq] at h
      obtain ⟨h1, h2⟩ := h
      subst h1
      exact ⟨rfl, rfl, fun hr => by rw [← h2] at hr; cases hr⟩
    · split at h
      · simp only [Prod.mk.injEq] at h
        obtain ⟨h1, h2⟩ := h
        subst h1
        exact ⟨rfl, rfl, fun hr => by rw [← h2] at hr; cases hr⟩
      · simp only [Prod.mk.injEq] at h
        obtain ⟨h1, _⟩ := h
        subst h1
        exact ⟨rfl, rfl, fun _ => ⟨rfl, rfl⟩⟩
  · simp only [Prod.mk.injEq] at h
    obtain ⟨h1, h2⟩ := h
    subst h1
    exact ⟨rfl, rfl, fun hr => by rw [← h2] at hr; cases hr⟩

/-- After merge --abort the merge flag is always clear; the rebase flag is
untouched; current and branches are untouched. -/
theorem gitMergeAbort_cases (g : GitState) :
    (gitMergeAbort g).1.midMerge = false ∧ (gitMergeAbort g).1.midRebase = g.midRebase ∧
      (gitMergeAbort g).1.current = g.current ∧ (gitMergeAbort g).1.branches = g.branches := by
  unfold gitMergeAbort
  split
  · exact ⟨rfl, rfl, rfl, rfl⟩
  · next hm =>
      simp only [Bool.not_eq_true] at hm
      exact ⟨hm, rfl, rfl, rfl⟩

/-- After rebase --abort the rebase flag is always clear; the merge flag is
untouched; current and branches are untouched. -/
theorem gitRebaseAbort_cases (g : GitState) :
    (gitRebaseAbort g).1.midRebase = false ∧ (gitRebaseAbort g).1.midMerge = g.midMerge ∧
      (gitRebaseAbort g).1.current = g.current ∧ (gitRebaseAbort g).1.branches = g.branches := by
  unfold gitRebaseAbort
  split
  · exact ⟨rfl, rfl, rfl, rfl⟩
  · next hm =>
      simp only [Bool.not_eq_true] at hm
      exact ⟨hm, rfl, rfl, rfl⟩

/-- Frame facts of RealGitService.rebaseBranch: branches and the merge flag
are untouched; a clear rebase flag stays clear (failures abort their own
rebase); on success the source branch is checked out. -/
theorem rebaseBranch_cases (g : GitState) (src tgt : String) (g' : GitState) (r : Option Err)
    (h : RealGitService.rebaseBranch g src tgt = (g', r)) :
    g'.branches = g.branches ∧ g'.midMerge = g.midMerge ∧
      (g.midRebase = false → g'.midRebase = false) ∧
      (r = none → g'.current = src) := by
  unfold RealGitService.rebaseBranch at h
  cases h1 : gitCheckout g src with
  | mk g1 r1 =>
      rw [h1] at h
      obtain ⟨hb1, hm1, hr1, hc1⟩ := gitCheckout_cases g src g1 r1 h1
      cases r1 with
      | some m1 =>
          dsimp only at h
          simp only [Prod.mk.injEq] at h
          obtain ⟨h2, h3⟩ := h
          subst h2
          obtain ⟨ha1, ha2, ha3, ha4⟩ := gitRebaseAbort_cases g1
          refine ⟨by rw [ha4, hb1], by rw [ha2, hm1], fun _ => ha1, fun hr => ?_⟩
          rw [← h3] at hr
          cases hr
      | none =>
          dsimp only at h
          cases h2 : gitRebase g1 tgt with
          | mk g2 r2 =>
              rw [h2] at h
              obtain ⟨hc2, hb2, hm2⟩ := gitRebase_cases g1 tgt g2 r2 h2
              cases r2 with
              | none =>
                  dsimp only at h
                  simp only [Prod.mk.injEq] at h
                  obtain ⟨h3, h4⟩ := h
                  subst h3
                  refine ⟨by rw [hb2, hb1], by rw [hm2, hm1], fun hstart => ?_, fun _ => ?_⟩
                  · -- gitRebase succeeded, so it did not set the flag
                    unfold gitRebase at h2
                    split at h2
                    · split at h2
                      · simp only [Prod.mk.injEq] at h2
                        obtain ⟨_, h6⟩ := h2
                        cases h6
                      · simp only [Prod.mk.injEq] at h2
                        obtain ⟨h5, _⟩ := h2
                        subst h5
                        rw [hr1, hstart]
                    · simp only [Prod.mk.injEq] at h2
                      obtain ⟨h5, _⟩ := h2
                      subst h5
                      rw [hr1, hstart]
                  · rw [hc2]
                    exact hc1 rfl
              | some m2 =>
                  dsimp only at h
                  simp only [Prod.mk.injEq] at h
                  obtain ⟨h3, h4⟩ := h
                  subst h3
                  obtain ⟨ha1, ha2, ha3, ha4⟩ := gitRebaseAbort_cases g2
                  refine ⟨by rw [ha4, hb2, hb1], by rw [ha2, hm2, hm1], fun _ => ha1, fun hr => ?_⟩
                  rw [← h4] at hr
                  cases hr

/-- The catch block of RealGitService.completeTask clears the merge flag,
and clears the rebase flag whenever it was clear on entry; current and
branches are untouched. -/
theorem realCatch_cases (g : GitState) :
    (RealGitService.completeTaskCatch g).midMerge = false ∧
      (g.midRebase = false → (RealGitService.completeTaskCatch g).midRebase = false) := by
  unfold RealGitService.completeTaskCatch
  cases hA : gitMergeAbort g with
  | mk gA rA =>
      have hfst : (gitMergeAbort g).1 = gA := by rw [hA]
      obtain ⟨ha1, ha2, _, _⟩ := gitMergeAbort_cases g
      rw [hfst] at ha1 ha2
      cases rA with
      | none =>
          dsimp only
          obtain ⟨hb1, hb2, _, _⟩ := gitRebaseAbort_cases gA
          exact ⟨by rw [hb2, ha1], fun _ => hb1⟩
      | some m =>
          dsimp only
          exact ⟨ha1, fun hrr => by rw [ha2, hrr]⟩

/-- C9 (amended): on success the real branch service's completeTask ends on
the main branch with the task branch deleted, and on failure its catch
block leaves no merge or rebase in progress; but a failed call may leave
the working copy checked out on the task branch rather than the default
branch (see the counterexample). The mock service ends on master exactly
when it succeeds. -/
theorem branchService_completeTask_state :
    (∀ (g : GitState) (taskId : String) (res : Except Err Unit) (g' : GitState) (c' : Option String),
      g.midMerge = false → g.midRebase = false →
      RealGitService.completeTask g none taskId = (res, g', c') →
      (res = .ok () → g'.current = g.current ∧
        g'.branches = g.branches.erase ("task/" ++ taskId)) ∧
      (∀ e, res = .error e → g'.midMerge = false ∧ g'.midRebase = false)) ∧
    (∀ (mock g2 : MockGit) (taskId : String),
      MockGitService.completeTask mock taskId = (.ok (), g2) →
      g2.current = "master" ∧ g2.branches = mock.branches.erase ("task/" ++ taskId)) := by
  constructor
  · intro g taskId res g' c' hM hR hrun
    unfold RealGitService.completeTask at hrun
    simp only [Option.getD_none] at hrun
    cases hcl : g.clean with
    | true =>
        rw [hcl] at hrun
        simp only [Bool.not_true, Bool.false_eq_true, if_false, beq_self_eq_true,
          eq_self_iff_true, if_true] at hrun
        cases h2 : gitPull g with
        | mk g2 r2 =>
            rw [h2] at hrun
            obtain rfl : g = g2 := (gitPull_cases g g2 r2 h2).symm
            cases r2 with
            | some m2 =>
                dsimp only at hrun
                simp only [Prod.mk.injEq] at hrun
                obtain ⟨hres, hg, _⟩ := hrun
                subst hres
                subst hg
                refine ⟨fun hok => Except.noConfusion hok, fun e he => ?_⟩
                obtain ⟨hc1, hc2⟩ := realCatch_cases g
                exact ⟨hc1, hc2 hR⟩
            | none =>
                dsimp only at hrun
                cases h3 : gitCheckout g ("task/" ++ taskId) with
                | mk g3 r3 =>
                    rw [h3] at hrun
                    obtain ⟨hb3, hm3, hr3, hc3⟩ := gitCheckout_cases g ("task/" ++ taskId) g3 r3 h3
                    cases r3 with
                    | some m3 =>
                        dsimp only at hrun
                        simp only [Prod.mk.injEq] at hrun
                        obtain ⟨hres, hg, _⟩ := hrun
                        subst hres
                        subst hg
                        refine ⟨fun hok => Except.noConfusion hok, fun e he => ?_⟩
                        obtain ⟨hc1, hc2⟩ := realCatch_cases g3
                        exact ⟨hc1, hc2 (by rw [hr3]; exact hR)⟩
                    | none =>
                        dsimp only at hrun
                        cases h4 : RealGitService.rebaseBranch g3 ("task/" ++ taskId) g.current with
                        | mk g4 r4 =>
                            rw [h4] at hrun
                            obtain ⟨hb4, hm4, hr4, hc4⟩ :=
                              rebaseBranch_cases g3 ("task/" ++ taskId) g.current g4 r4 h4
                            have hr4f : g4.midRebase = false := hr4 (by rw [hr3]; exact hR)
                            cases r4 with
                            | some m4 =>
                                dsimp only at hrun
                                simp only [Prod.mk.injEq] at hrun
                                obtain ⟨hres, hg, _⟩ := hrun
                                subst hres
                                subst hg
                                refine ⟨fun hok => Except.noConfusion hok, fun e he => ?_⟩
                                obtain ⟨hc1, hc2⟩ := realCatch_cases g4
                                exact ⟨hc1, hc2 hr4f⟩
                            | none =>
                                dsimp only at hrun
                                cases h5 : gitCheckout g4 g.current with
                                | mk g5 r5 =>
                                    rw [h5] at hrun
                                    obtain ⟨hb5, hm5, hr5, hc5⟩ :=
                                      gitCheckout_cases g4 g.current g5 r5 h5
                                    cases r5 with
                                    | some m5 =>
                                        dsimp only at hrun
                                        simp only [Prod.mk.injEq] at hrun
                                        obtain ⟨hres, hg, _⟩ := hrun
                                        subst hres
                                        subst hg
                                        refine ⟨fun hok => Except.noConfusion hok, fun e he => ?_⟩
                                        obtain ⟨hc1, hc2⟩ := realCatch_cases g5
                                        exact ⟨hc1, hc2 (by rw [hr5]; exact hr4f)⟩
                                    | none =>
                                        dsimp only at hrun
                                        cases h6 : gitMerge g5 ("task/" ++ taskId) with
                                        | mk g6 r6 =>
                                            rw [h6] at hrun
                                            obtain ⟨hcc6, hb6, hr6⟩ :=
                                              gitMerge_cases g5 ("task/" ++ taskId) g6 r6 h6
                                            have hr6f : g6.midRebase = false := by
                                              rw [hr6, hr5]; exact hr4f
                                            cases r6 with
                                            | some m6 =>
                                                dsimp only at hrun
                                                simp only [Prod.mk.injEq] at hrun
                                                obtain ⟨hres, hg, _⟩ := hrun
                                                subst hres
                                                subst hg
                                                refine ⟨fun hok => Except.noConfusion hok, fun e he => ?_⟩
                                                obtain ⟨hc1, hc2⟩ := realCatch_cases g6
                                                exact ⟨hc1, hc2 hr6f⟩
                                            | none =>
                                                dsimp only at hrun
                                                cases h8 : gitDeleteBranch g6 ("task/" ++ taskId) true with
                                                | mk g8 r8 =>
                                                    rw [h8] at hrun
                                                    obtain ⟨hm8, hr8, hok8⟩ :=
                                                      gitDeleteBranch_cases g6 ("task/" ++ taskId) true g8 r8 h8
                                                    cases r8 with
                                                    | some m8 =>
                                                        dsimp only at hrun
                                                        simp only [Prod.mk.injEq] at hrun
                                                        obtain ⟨hres, hg, _⟩ := hrun
                                                        subst hres
                                                        subst hg
                                                        refine ⟨fun hok => Except.noConfusion hok, fun e he => ?_⟩
                                                        obtain ⟨hc1, hc2⟩ := realCatch_cases g8
                                                        exact ⟨hc1, hc2 (by rw [hr8]; exact hr6f)⟩
                                                    | none =>
                                                        dsimp only at hrun
                                                        simp only [Prod.mk.injEq] at hrun
                                                        obtain ⟨hres, hg, _⟩ := hrun
                                                        subst hres
                                                        subst hg
                                                        obtain ⟨hcur8, hbr8⟩ := hok8 rfl
                                                        refine ⟨fun _ => ⟨?_, ?_⟩, fun e he => by cases he⟩
                                                        · rw [hcur8, hcc6, hc5 rfl]
                                                        · rw [hbr8, hb6, hb5, hb4, hb3]
    | false =>
        rw [hcl] at hrun
        unfold gitStash at hrun
        simp only [Bool.not_false, eq_self_iff_true, if_true, beq_self_eq_true] at hrun
        cases h2 : gitPull { g with stashed := g.stashed + 1, clean := true } with
        | mk g2 r2 =>
            rw [h2] at hrun
            obtain rfl : g2 = { g with stashed := g.stashed + 1, clean := true } :=
              gitPull_cases _ g2 r2 h2
            cases r2 with
            | some m2 =>
                dsimp only at hrun
                simp only [Prod.mk.injEq] at hrun
                obtain ⟨hres, hg, _⟩ := hrun
                subst hres
                subst hg
                refine ⟨fun hok => Except.noConfusion hok, fun e he => ?_⟩
                obtain ⟨hc1, hc2⟩ := realCatch_cases { g with stashed := g.stashed + 1, clean := true }
                exact ⟨hc1, hc2 hR⟩
            | none =>
                dsimp only at hrun
                cases h3 : gitCheckout { g with stashed := g.stashed + 1, clean := true } ("task/" ++ taskId) with
                | mk g3 r3 =>
                    rw [h3] at hrun
                    obtain ⟨hb3, hm3, hr3, hc3⟩ :=
                      gitCheckout_cases _ ("task/" ++ taskId) g3 r3 h3
                    cases r3 with
                    | some m3 =>
                        dsimp only at hrun
                        simp only [Prod.mk.injEq] at hrun
                        obtain ⟨hres, hg, _⟩ := hrun
                        subst hres
                        subst hg
                        refine ⟨fun hok => Except.noConfusion hok, fun e he => ?_⟩
                        obtain ⟨hc1, hc2⟩ := realCatch_cases g3
                        exact ⟨hc1, hc2 (by rw [hr3]; exact hR)⟩
                    | none =>
                        dsimp only at hrun
                        cases h4 : RealGitService.rebaseBranch g3 ("task/" ++ taskId) g.current with
                        | mk g4 r4 =>
                            rw [h4] at hrun
                            obtain ⟨hb4, hm4, hr4, hc4⟩ :=
                              rebaseBranch_cases g3 ("task/" ++ taskId) g.current g4 r4 h4
                            have hr4f : g4.midRebase = false := hr4 (by rw [hr3]; exact hR)
                            cases r4 with
                            | some m4 =>
                                dsimp only at hrun
                                simp only [Prod.mk.injEq] at hrun
                                obtain ⟨hres, hg, _⟩ := hrun
                                subst hres
                                subst hg
                                refine ⟨fun hok => Except.noConfusion hok, fun e he => ?_⟩
                                obtain ⟨hc1, hc2⟩ := realCatch_cases g4
                                exact ⟨hc1, hc2 hr4f⟩
                            | none =>
                                dsimp only at hrun
                                cases h5 : gitCheckout g4 g.current with
                                | mk g5 r5 =>
                                    rw [h5] at hrun
                                    obtain ⟨hb5, hm5, hr5, hc5⟩ :=
                                      gitCheckout_cases g4 g.current g5 r5 h5
                                    cases r5 with
                                    | some m5 =>
                                        dsimp only at hrun
                                        simp only [Prod.mk.injEq] at hrun
                                        obtain ⟨hres, hg, _⟩ := hrun
                                        subst hres
                                        subst hg
                                        refine ⟨fun hok => Except.noConfusion hok, fun e he => ?_⟩
                                        obtain ⟨hc1, hc2⟩ := realCatch_cases g5
                                        exact ⟨hc1, hc2 (by rw [hr5]; exact hr4f)⟩
                                    | none =>
                                        dsimp only at hrun
                                        cases h6 : gitMerge g5 ("task/" ++ taskId) with
                                        | mk g6 r6 =>
                                            rw [h6] at hrun
                                            obtain ⟨hcc6, hb6, hr6⟩ :=
                                              gitMerge_cases g5 ("task/" ++ taskId) g6 r6 h6
                                            have hr6f : g6.midRebase = false := by
                                              rw [hr6, hr5]; exact hr4f
                                            cases r6 with
                                            | some m6 =>
                                                dsimp only at hrun
                                                simp only [Prod.mk.injEq] at hrun
                                                obtain ⟨hres, hg, _⟩ := hrun
                                                subst hres
                                                subst hg
                                                refine ⟨fun hok => Except.noConfusion hok, fun e he => ?_⟩
                                                obtain ⟨hc1, hc2⟩ := realCatch_cases g6
                                                exact ⟨hc1, hc2 hr6f⟩
                                            | none =>
                                                dsimp only at hrun
                                                cases h7 : gitStashPop g6 with
                                                | mk g7 r7 =>
                                                    rw [h7] at hrun
                                                    obtain ⟨hcc7, hb7, hm7, hr7⟩ :=
                                                      gitStashPop_cases g6 g7 r7 h7
                                                    cases r7 with
                                                    | some m7 =>
                                                        dsimp only at hrun
                                                        simp only [Prod.mk.injEq] at hrun
                                                        obtain ⟨hres, hg, _⟩ := hrun
                                                        subst hres
                                                        subst hg
                                                        refine ⟨fun hok => Except.noConfusion hok, fun e he => ?_⟩
                                                        obtain ⟨hc1, hc2⟩ := realCatch_cases g7
                                                        exact ⟨hc1, hc2 (by rw [hr7]; exact hr6f)⟩
                                                    | none =>
                                                        dsimp only at hrun
                                                        cases h8 : gitDeleteBranch g7 ("task/" ++ taskId) true with
                                                        | mk g8 r8 =>
                                                            rw [h8] at hrun
                                                            obtain ⟨hm8, hr8, hok8⟩ :=
                                                              gitDeleteBranch_cases g7 ("task/" ++ taskId) true g8 r8 h8
                                                            cases r8 with
                                                            | some m8 =>
                                                                dsimp only at hrun
                                                                simp only [Prod.mk.injEq] at hrun
                                                                obtain ⟨hres, hg, _⟩ := hrun
                                                                subst hres
                                                                subst hg
                                                                refine ⟨fun hok => Except.noConfusion hok, fun e he => ?_⟩
                                                                obtain ⟨hc1, hc2⟩ := realCatch_cases g8
                                                                exact ⟨hc1, hc2 (by rw [hr8, hr7]; exact hr6f)⟩
                                                            | none =>
                                                                dsimp only at hrun
                                                                simp only [Prod.mk.injEq] at hrun
                                                                obtain ⟨hres, hg, _⟩ := hrun
                                                                subst hres
                                                                subst hg
                                                                obtain ⟨hcur8, hbr8⟩ := hok8 rfl
                                                                refine ⟨fun _ => ⟨?_, ?_⟩, fun e he => by cases he⟩
                                                                · rw [hcur8, hcc7, hcc6, hc5 rfl]
                                                                · rw [hbr8, hb7, hb6, hb5, hb4, hb3]
  · intro mock g2 taskId h
    unfold MockGitService.completeTask at h
    dsimp only at h
    split at h
    · simp only [Prod.mk.injEq] at h
      obtain ⟨_, hg⟩ := h
      subst hg
      exact ⟨rfl, rfl⟩
    · simp at h

/-- Git state where rebasing the task branch onto master conflicts. -/
def gitC9 : GitState :=
  { current := "master"
    branches := ["master", "task/t1"]
    headCommit := "c0", midMerge := false, midRebase := false, clean := true
    stashed := 0, pullOk := true
    mergeConflict := fun _ _ => false
    rebaseConflict := fun b _ => b == "task/t1"
    unmerged := fun _ => false }

/-- Counterexample to C9 as stated: starting on master (the default
branch), the real service's completeTask fails on the rebase conflict and
leaves the working copy checked out on the task branch, not on the default
branch. -/
theorem realGit_completeTask_leaves_task_branch :
    (RealGitService.completeTask gitC9 none "t1").1 = .error (Err.git "Failed to complete task") ∧
    (RealGitService.completeTask gitC9 none "t1").2.1.current = "task/t1" ∧
    gitC9.current = "master" ∧
    (RealGitService.completeTask gitC9 none "t1").2.1.current ≠ gitC9.current :=
  ⟨by rfl, by rfl, by rfl, by decide⟩

/-- Conflict-free git state on which completeTask succeeds. -/
def gitC9w : GitState :=
  { current := "master"
    branches := ["master", "task/t1"]
    headCommit := "c0", midMerge := false, midRebase := false, clean := true
    stashed := 0, pullOk := true
    mergeConflict := fun _ _ => false, rebaseConflict := fun _ _ => false
    unmerged := fun _ => false }

/-- Witness for C9 (amended): the concrete successful run ends on the
default branch with the task branch deleted, and the failure clause holds
vacuously alongside it. -/
theorem branchService_completeTask_state_witness :
    ((RealGitService.completeTask gitC9w none "t1").1 = .ok () →
      (RealGitService.completeTask gitC9w none "t1").2.1.current = gitC9w.current ∧
      (RealGitService.completeTask gitC9w none "t1").2.1.branches =
        gitC9w.branches.erase ("task/" ++ "t1")) ∧
    (∀ e, (RealGitService.completeTask gitC9w none "t1").1 = .error e →
      (RealGitService.completeTask gitC9w none "t1").2.1.midMerge = false ∧
      (RealGitService.completeTask gitC9w none "t1").2.1.midRebase = false) :=
  branchService_completeTask_state.1 gitC9w "t1"
    (RealGitService.completeTask gitC9w none "t1").1
    (RealGitService.completeTask gitC9w none "t1").2.1
    (RealGitService.completeTask gitC9w none "t1").2.2
    (by rfl) (by rfl) (by rfl)
